import Mathlib

/-!
# XBee command-mode driver (Library/libxbee.c)

A shallow embedding of the serial-port library: the C functions become Lean
functions over an explicit world.  Bytes (C char values) are natural numbers,
C int values are integers, and the conversion of a string length to int in
init_port is explicit.  The operating system is an oracle: the values it
returns to write, select and read are listed in the world in the order of the
calls, and the calls the program makes are logged.

The diagnostic printf calls of the source are not part of the model.
-/

namespace XBee

/-! ## Constants of libxbee.h and character codes -/

/-- MAX_BUFFER_SIZE of libxbee.h. -/
def MAX_BUFFER_SIZE : Nat := 255

/-- The carriage return character, the delimiter of XBee responses. -/
def CR : Nat := 13

/-- The string literal "+++\0" as it lies in memory (with the terminator the
compiler appends). -/
def lit_guard : List Nat := [43, 43, 43, 0, 0]

/-- The string literal "atcn\r" as it lies in memory. -/
def lit_atcn : List Nat := [97, 116, 99, 110, 13, 0]

/-- The string literal "atmy\r" as it lies in memory. -/
def lit_atmy : List Nat := [97, 116, 109, 121, 13, 0]

/-- The string literal "OK" as it lies in memory. -/
def lit_OK : List Nat := [79, 75, 0]

/-- The string literal "/dev/ttyUSB0" as it lies in memory. -/
def lit_default_port : List Nat := [47, 100, 101, 118, 47, 116, 116, 121, 85, 83, 66, 48, 0]

/-! ## C strings -/

/-- The C string stored at the start of a region of memory: the bytes before
the first NUL. -/
def cstr (s : List Nat) : List Nat :=
  s.takeWhile (fun b => b != 0)

/-- C strlen. -/
def strlen (s : List Nat) : Nat :=
  (cstr s).length

/-- C strncmp: compares at most n characters, stops after a NUL, and returns
the difference of the first pair of characters that differ. A region that ends
is read as NUL. -/
def strncmp (s1 s2 : List Nat) : Nat → Int
  | 0 => 0
  | n + 1 =>
    let a := s1.headD 0
    let b := s2.headD 0
    if a ≠ b then (a : Int) - (b : Int)
    else if a = 0 then 0
    else strncmp s1.tail s2.tail n

/-! ## The operating system as seen by the library -/

/-- Outcome of one call read(port_descriptor, &rx_char, 1). -/
inductive ReadResult where
  /-- one byte was transferred into rx_char; read returns 1 -/
  | byte (b : Nat)
  /-- nothing was transferred; read returns 0 -/
  | nothing
  /-- the call failed; read returns -1 and rx_char is untouched -/
  | error
  deriving DecidableEq, Repr

/-- The value read returns. -/
def ReadResult.ret : ReadResult → Int
  | .byte _ => 1
  | .nothing => 0
  | .error => -1

/-- The content of rx_char after the call. -/
def ReadResult.store : ReadResult → Nat → Nat
  | .byte b, _ => b
  | .nothing, rx_char => rx_char
  | .error, rx_char => rx_char

/-- The answers of the OS during one turn of the polling loop: what select
returns, and the outcome of the read that follows when the program issues one
(it does so only after a positive select). -/
structure Poll where
  ready : Int
  rd : ReadResult
  deriving DecidableEq, Repr

/-- The world of the input/output functions: the global port_descriptor, the
answers the OS will give, and the log of what was handed to write. -/
structure Port where
  /-- the global port_descriptor -/
  port_descriptor : Int
  /-- values returned by the coming calls of write, in order; once they are
  used up write accepts every request in full -/
  writes : List Int
  /-- answers to the coming turns of the polling loop, in order; once they are
  used up nothing more arrives -/
  polls : List Poll
  /-- the byte strings handed to write so far, oldest first -/
  sent : List (List Nat)
  deriving DecidableEq, Repr

/-- How a call ends. -/
inductive Run (α : Type) where
  /-- the function returned -/
  | returned (a : α)
  /-- the port delivers nothing more and read_port is still polling -/
  | blocked
  /-- read_port stores at buffer[index], outside the array it was given -/
  | overrun (index : Nat)
  deriving DecidableEq, Repr

/-- Sequencing of calls. -/
def Run.bind {α β : Type} : Run α → (α → Run β) → Run β
  | .returned a, f => f a
  | .blocked, _ => .blocked
  | .overrun i, _ => .overrun i

/-! ## check_descriptors -/

/-- What one call of check_descriptors did. -/
structure Selected where
  /-- the value returned -/
  result : Int
  /-- the descriptors in readfs when select is called -/
  readfs : List Int
  /-- the indices of fds[] that were read, in order -/
  accessed : List Int
  deriving DecidableEq, Repr

/-- The loop of check_descriptors,
while( count > -1 ) { FD_SET( fds[count], &readfs ); count--; },
run for at most the given number of turns. -/
def fd_set_loop (fds : List Int) : Nat → Int → List Int → List Int → List Int × List Int
  | 0, _, readfs, accessed => (readfs, accessed)
  | turns + 1, count, readfs, accessed =>
    if count > -1 then
      fd_set_loop fds turns (count - 1) (readfs ++ [fds.getD count.toNat 0]) (accessed ++ [count])
    else (readfs, accessed)

/-- check_descriptors( count, fds ); the last argument is the value the OS
returns from select for this call. -/
def check_descriptors (count : Int) (fds : List Int) (select : Int) : Selected :=
  let count := count - 1
  let filled := fd_set_loop fds (count + 1).toNat count [] []
  { result := select, readfs := filled.1, accessed := filled.2 }

/-! ## write_port and read_port -/

/-- The system call write(port_descriptor, bytes, count): logs the request and
returns the next scheduled value. -/
def os_write (bytes : List Nat) (p : Port) : Int × Port :=
  match p.writes with
  | [] => ((bytes.length : Int), { p with sent := p.sent ++ [bytes] })
  | r :: rs => (r, { p with writes := rs, sent := p.sent ++ [bytes] })

/-- write_port( buffer ). -/
def write_port (buffer : List Nat) (p : Port) : Int × Port :=
  let w := os_write (buffer.take (strlen buffer)) p
  let write_count := w.1
  if write_count < 0 then (1, w.2) else (0, w.2)

/-- The while loop of read_port over the coming polls. The arguments are the
current values of rx_char, index and the caller's array; the result is the
array and the polls left when the loop exits. -/
def read_loop (fds : List Int) : List Poll → Nat → Nat → List Nat → Run (List Nat × List Poll)
  | polls, rx_char, index, buffer =>
    if rx_char = CR then .returned (buffer, polls)
    else
      match polls with
      | [] => .blocked
      | q :: rest =>
        if (check_descriptors 1 fds q.ready).result > 0 then
          if q.rd.ret ≠ 0 then
            let rx_char := q.rd.store rx_char
            if index < buffer.length then
              read_loop fds rest rx_char (index + 1)
                (buffer.set index (if rx_char = CR then 0 else rx_char))
            else .overrun index
          else read_loop fds rest rx_char index buffer
        else read_loop fds rest rx_char index buffer

/-- read_port( fds, buffer ). The local rx_char is not initialised by the
source, so the value it happens to hold on entry is an argument. Returns the
result code (always 0), the array and the world. -/
def read_port (fds : List Int) (rx_char : Nat) (buffer : List Nat) (p : Port) :
    Run (Int × List Nat × Port) :=
  (read_loop fds p.polls rx_char 0 buffer).bind fun r =>
    .returned (0, r.1, { p with polls := r.2 })

/-! ## Command mode -/

/-- The values that the automatic variables of one enter_command_mode or
exit_command_mode call hold before anything is assigned to them. -/
structure Locals where
  /-- rx_char of the read_port call -/
  rx_char : Nat
  /-- the array rx[MAX_BUFFER_SIZE] -/
  rx : List Nat
  deriving DecidableEq, Repr

/-- enter_command_mode( ). -/
def enter_command_mode (l : Locals) (p : Port) : Run (Int × Port) :=
  let fds := [p.port_descriptor]
  let w := write_port lit_guard p
  if w.1 = 0 then
    (read_port fds l.rx_char l.rx w.2).bind fun r =>
      let result := r.1
      if result ≠ 0 then .returned (-2, r.2.2)
      else .returned (strncmp r.2.1 lit_OK 2, r.2.2)
  else .returned (-1, w.2)

/-- exit_command_mode( ). -/
def exit_command_mode (l : Locals) (p : Port) : Run (Int × Port) :=
  let fds := [p.port_descriptor]
  let w := write_port lit_atcn p
  if w.1 = 0 then
    (read_port fds l.rx_char l.rx w.2).bind fun r =>
      if r.1 ≠ 0 then .returned (-2, r.2.2)
      else .returned ((if strncmp r.2.1 lit_OK 2 = 0 then 1 else 0), r.2.2)
  else .returned (-1, w.2)

/-- get_ip( buffer ). The arguments e and x are the uninitialised locals of
the enter and exit calls, rx_char the one of the direct read_port call. -/
def get_ip (e : Locals) (rx_char : Nat) (x : Locals) (buffer : List Nat) (p : Port) :
    Run (Int × List Nat × Port) :=
  (enter_command_mode e p).bind fun en =>
    let result := en.1
    if result = 0 then
      let fds := [en.2.port_descriptor]
      let w := write_port lit_atmy en.2
      if w.1 = 0 then
        (read_port fds rx_char buffer w.2).bind fun r =>
          if r.1 ≠ 0 then .returned (-3, r.2.1, r.2.2)
          else
            (exit_command_mode x r.2.2).bind fun ex =>
              .returned (result, r.2.1, ex.2)
      else .returned (-2, buffer, w.2)
    else .returned (-1, buffer, en.2)

/-! ## init_port -/

/-- Constants of the system headers (values of Linux, asm-generic). -/
def O_RDWR : Nat := 2

/-- See O_RDWR. -/
def O_NOCTTY : Nat := 256

/-- See O_RDWR. -/
def O_NONBLOCK : Nat := 2048

/-- See O_RDWR. -/
def O_ASYNC : Nat := 8192

/-- The fcntl command F_SETFL. -/
def F_SETFL : Nat := 4

/-- The signal number of SIGIO. -/
def SIGIO : Nat := 29

/-- The handler value SIG_IGN. -/
def SIG_IGN : Nat := 1

/-- BAUDRATE of libxbee.h, that is B9600. -/
def BAUDRATE : Nat := 13

/-- Control mode flag of termios.h. -/
def CS8 : Nat := 48

/-- Control mode flag of termios.h. -/
def CLOCAL : Nat := 2048

/-- Control mode flag of termios.h. -/
def CREAD : Nat := 128

/-- Input mode flag of termios.h. -/
def IGNPAR : Nat := 4

/-- Input mode flag of termios.h. -/
def ICRNL : Nat := 256

/-- Input mode flag of termios.h. -/
def IGNCR : Nat := 128

/-- Local mode flag of termios.h. -/
def ICANON : Nat := 2

/-- Local mode flag of termios.h. -/
def ECHO : Nat := 8

/-- Local mode flag of termios.h. -/
def ECHOE : Nat := 16

/-- Local mode flag of termios.h. -/
def ISIG : Nat := 1

/-- Index into c_cc. -/
def VMIN : Nat := 6

/-- Index into c_cc. -/
def VTIME : Nat := 5

/-- Length of c_cc. -/
def NCCS : Nat := 32

/-- Queue selector of tcflush. -/
def TCIFLUSH : Nat := 0

/-- Action selector of tcsetattr. -/
def TCSANOW : Nat := 0

/-- TIMEOUT_SEC of libxbee.h. -/
def TIMEOUT_SEC : Int := 0

/-- TIMEOUT_USEC of libxbee.h. -/
def TIMEOUT_USEC : Int := 1000

/-- Bitwise complement of a 32-bit flag word (tcflag_t). -/
def complement32 (x : Nat) : Nat :=
  (2 ^ 32 - 1) ^^^ (x % 2 ^ 32)

/-- The fields of struct termios that init_port sets. -/
structure Termios where
  c_iflag : Nat
  c_oflag : Nat
  c_cflag : Nat
  c_lflag : Nat
  c_cc : List Nat
  deriving DecidableEq, Repr

/-- The global variables of libxbee.h that init_port assigns. -/
structure Globals where
  port_descriptor : Int
  /-- the array port_name[MAX_BUFFER_SIZE] -/
  port_name : List Nat
  /-- tv_sec and tv_usec of timeout -/
  timeout : Int × Int
  newtio : Termios
  maxfd : Int
  deriving DecidableEq, Repr

/-- The calls init_port makes into the OS, with their arguments. The name
given to open is the C string found at port_name. -/
inductive OsCall where
  | signal (signum handler : Nat)
  | sys_open (name : List Nat) (flags : Nat)
  | fcntl (fd : Int) (cmd arg : Nat)
  | tcflush (fd : Int) (queue : Nat)
  | tcsetattr (fd : Int) (actions : Nat) (t : Termios)
  deriving DecidableEq, Repr

/-- What the environment answers during one init_port call: the values
returned by open, fcntl, tcflush and tcsetattr, and the address of the global
newtio (the address of an object, hence not null). -/
structure InitEnv where
  open_ret : Int
  fcntl_ret : Int
  tcflush_ret : Int
  tcsetattr_ret : Int
  newtio_addr : ℕ+

/-- C strcpy( dest, src ): the string at src with its terminator overwrites
the start of dest. -/
def strcpy (dest src : List Nat) : List Nat :=
  (cstr src ++ [0]) ++ dest.drop ((cstr src).length + 1)

/-- C strncpy( dest, src, n ): exactly n bytes of dest are written, the
characters of the string at src (at most n of them) and then NUL padding. -/
def strncpy (dest src : List Nat) (n : Nat) : List Nat :=
  ((cstr src).take n ++ List.replicate (n - (cstr src).length) 0) ++ dest.drop n

/-- The value memset( &newtio, 0, sizeof(newtio) ) leaves in newtio. -/
def memset_newtio : Termios :=
  { c_iflag := 0, c_oflag := 0, c_cflag := 0, c_lflag := 0, c_cc := List.replicate NCCS 0 }

/-- The conversion of a size_t value to int, as gcc and clang do it on Linux:
the value modulo 2^32, read as a 32-bit two's complement number. -/
def to_int (n : Nat) : Int :=
  if n % 4294967296 < 2147483648 then ((n % 4294967296 : Nat) : Int)
  else ((n % 4294967296 : Nat) : Int) - 4294967296

/-- init_port( port ). Returns the result code, the globals and the OS calls
made, in order. The variable length is an int: it holds strlen( port )
converted to int. -/
def init_port (port : List Nat) (env : InitEnv) (g : Globals) : Int × Globals × List OsCall :=
  let length : Int := to_int (strlen port)
  if length > 255 then (1, g, [])
  else
    let g := if length = 0 then { g with port_name := strcpy g.port_name lit_default_port }
      else { g with port_name := strncpy g.port_name port MAX_BUFFER_SIZE }
    let calls := [OsCall.signal SIGIO SIG_IGN]
    let calls := calls ++ [OsCall.sys_open (cstr g.port_name) (O_RDWR ||| O_NOCTTY ||| O_NONBLOCK)]
    let g := { g with port_descriptor := env.open_ret }
    if g.port_descriptor ≤ 0 then (2, g, calls)
    else
      let calls := calls ++ [OsCall.fcntl g.port_descriptor F_SETFL O_ASYNC]
      let ret_value := env.fcntl_ret
      if ret_value ≠ 0 then (3, g, calls)
      else
        let g := { g with timeout := (TIMEOUT_SEC, TIMEOUT_USEC) }
        let g := { g with maxfd := g.port_descriptor + 3 }
        let g := { g with newtio := memset_newtio }
        if (env.newtio_addr : Nat) < 1 then (4, g, calls)
        else
          let g := { g with newtio := { g.newtio with c_cflag := BAUDRATE ||| CS8 ||| CLOCAL ||| CREAD } }
          let g := { g with newtio := { g.newtio with c_iflag := IGNPAR ||| ICRNL } }
          let g := { g with newtio := { g.newtio with c_oflag := 0 } }
          let g := { g with newtio :=
            { g.newtio with c_lflag := complement32 (ICANON ||| ECHO ||| ECHOE ||| ISIG) } }
          let g := { g with newtio := { g.newtio with c_cc := g.newtio.c_cc.set VMIN 0 } }
          let g := { g with newtio := { g.newtio with c_cc := g.newtio.c_cc.set VTIME 1 } }
          let calls := calls ++ [OsCall.tcflush g.port_descriptor TCIFLUSH]
          let ret_value := env.tcflush_ret
          if ret_value ≠ 0 then (5, g, calls)
          else
            let calls := calls ++ [OsCall.tcsetattr g.port_descriptor TCSANOW g.newtio]
            let ret_value := env.tcsetattr_ret
            if ret_value ≠ 0 then (6, g, calls)
            else (0, g, calls)

/-! ## Vocabulary for schedules -/

/-- The bytes a schedule hands to read_port: one for every poll with a positive
select result and a successful read. -/
def delivered : List Poll → List Nat
  | [] => []
  | q :: rest =>
    match q.rd with
    | .byte b => if q.ready > 0 then b :: delivered rest else delivered rest
    | _ => delivered rest

/-- No read of the schedule fails: after a positive select the read returns 1
or 0. -/
def noReadError (polls : List Poll) : Prop :=
  ∀ q ∈ polls, q.ready > 0 → q.rd ≠ ReadResult.error

instance (polls : List Poll) : Decidable (noReadError polls) := by
  unfold noReadError
  infer_instance

/-- One poll that is ready and delivers the given byte. -/
def gives (b : Nat) : Poll := { ready := 1, rd := .byte b }

/-- The number of polls after which read_port stores a byte: the select result
is positive and read does not return 0. -/
def storing : List Poll → Nat
  | [] => 0
  | q :: rest => (if q.ready > 0 ∧ q.rd.ret ≠ 0 then 1 else 0) + storing rest

/-! ## The stores of read_port -/

/-- The assignments buffer[index] = value that the while loop of read_port
makes over the coming polls, in order, as pairs of index and value. It is the
loop of read_loop, observed at its stores instead of its result. -/
def read_stores (fds : List Int) : List Poll → Nat → Nat → List (Nat × Nat)
  | polls, rx_char, index =>
    if rx_char = CR then []
    else
      match polls with
      | [] => []
      | q :: rest =>
        if (check_descriptors 1 fds q.ready).result > 0 then
          if q.rd.ret ≠ 0 then
            let rx_char := q.rd.store rx_char
            (index, if rx_char = CR then 0 else rx_char) ::
              read_stores fds rest rx_char (index + 1)
          else read_stores fds rest rx_char index
        else read_stores fds rest rx_char index

/-- The array after a list of stores. -/
def apply_stores (buffer : List Nat) (stores : List (Nat × Nat)) : List Nat :=
  stores.foldl (fun b s => b.set s.1 s.2) buffer

/-! ## The terminal driver and the file status flags -/

/-- The newline character. -/
def NL : Nat := 10

/-- Input mode flag of termios.h. -/
def INLCR : Nat := 64

/-- Open flag of fcntl.h (Linux, asm-generic). -/
def O_APPEND : Nat := 1024

/-- Open flag of fcntl.h (Linux, asm-generic). -/
def O_DIRECT : Nat := 16384

/-- Open flag of fcntl.h (Linux, asm-generic). -/
def O_NOATIME : Nat := 262144

/-- Input mode flag of termios.h. -/
def ISTRIP : Nat := 32

/-- Input mode flag of termios.h. -/
def IUCLC : Nat := 512

/-- Local mode flag of termios.h. -/
def IEXTEN : Nat := 32768

/-- Local mode flag of termios.h. -/
def EXTPROC : Nat := 65536

/-- Whether the Linux terminal driver hands received bytes on without input
processing because of EXTPROC: the flag is set in c_lflag and neither ISTRIP
nor IUCLC together with IEXTEN asks for an operation on each byte. -/
def external_processing (c_iflag c_lflag : Nat) : Bool :=
  decide (c_lflag &&& EXTPROC ≠ 0) &&
    !(decide (c_iflag &&& ISTRIP ≠ 0) ||
      (decide (c_iflag &&& IUCLC ≠ 0) && decide (c_lflag &&& IEXTEN ≠ 0)))

/-- What the terminal driver makes of one received byte under the modes
c_iflag and c_lflag: with EXTPROC in force the byte is handed on as it is;
otherwise a CR is dropped under IGNCR, else turned into NL under ICRNL, and a
NL is turned into CR under INLCR. -/
def translate_byte (c_iflag c_lflag : Nat) (c : Nat) : List Nat :=
  if external_processing c_iflag c_lflag then [c]
  else if c = CR then
    if c_iflag &&& IGNCR ≠ 0 then []
    else if c_iflag &&& ICRNL ≠ 0 then [NL]
    else [CR]
  else if c = NL ∧ c_iflag &&& INLCR ≠ 0 then [CR]
  else [c]

/-- The byte stream the driver hands to read for the stream the peer sent. -/
def input_translation (c_iflag c_lflag : Nat) (peer : List Nat) : List Nat :=
  peer.flatMap (translate_byte c_iflag c_lflag)

/-- The file status flags that fcntl( fd, F_SETFL, arg ) can change (fcntl(2),
Linux). -/
def SETFL_MASK : Nat :=
  O_APPEND ||| O_ASYNC ||| O_DIRECT ||| O_NOATIME ||| O_NONBLOCK

/-- The file status flags after fcntl( fd, F_SETFL, arg ): the flags that can
be changed are replaced by those of arg, the others stay. -/
def fcntl_setfl (flags arg : Nat) : Nat :=
  (flags ^^^ (flags &&& SETFL_MASK)) ||| (arg &&& SETFL_MASK)

/-- The file status flags of the port descriptor after a sequence of OS calls:
open sets them, fcntl with F_SETFL replaces the changeable ones. -/
def status_flags : List OsCall → Nat → Nat
  | [], flags => flags
  | OsCall.sys_open _ fl :: rest, _ => status_flags rest fl
  | OsCall.fcntl _ cmd arg :: rest, flags =>
    status_flags rest (if cmd = F_SETFL then fcntl_setfl flags arg else flags)
  | _ :: rest, flags => status_flags rest flags

/-! ## The teardown of the terminal program (xbee_serial.c) -/

/-- The state restore_old_port_settings works on. Pointers are block numbers,
0 is the null pointer; heap lists the blocks obtained from calloc and not yet
freed. -/
structure Serial where
  global_rx_buffer : Nat
  global_tx_buffer : Nat
  heap : List Nat
  global_serial_port_descriptor : Int
  oldtio : Termios
  /-- the tcsetattr calls made so far: descriptor, action and settings -/
  applied : List (Int × Nat × Termios)
  deriving DecidableEq, Repr

/-- C free( ptr ) on the heap: nothing for the null pointer, the release of a
block that is allocated, and no defined result for any other pointer (a block
freed before). -/
def free (ptr : Nat) (heap : List Nat) : Option (List Nat) :=
  if ptr = 0 then some heap
  else if ptr ∈ heap then some (heap.erase ptr)
  else none

/-- restore_old_port_settings( ). The result none stands for a free without
defined behaviour. -/
def restore_old_port_settings (s : Serial) : Option Serial :=
  (free s.global_rx_buffer s.heap).bind fun heap1 =>
    (free s.global_tx_buffer heap1).bind fun heap2 =>
      some { s with
        heap := heap2
        applied := s.applied ++ [(s.global_serial_port_descriptor, TCSANOW, s.oldtio)] }

/-! ## The older check_descriptors (Source/libxbee.c) -/

namespace Source

/-- The loop of the older check_descriptors,
while( count > -1 ) { count--; FD_SET( fds[count], &readfs ); },
run for at most the given number of turns. The argument before is the int
that lies in memory in front of fds[0]; it is what fds[-1] reads. -/
def fd_set_loop (fds : List Int) (before : Int) :
    Nat → Int → List Int → List Int → List Int × List Int
  | 0, _, readfs, accessed => (readfs, accessed)
  | turns + 1, count, readfs, accessed =>
    if count > -1 then
      let count := count - 1
      fd_set_loop fds before turns count
        (readfs ++ [if count < 0 then before else fds.getD count.toNat 0]) (accessed ++ [count])
    else (readfs, accessed)

/-- The older check_descriptors( count, fds ); the last argument is the value
the OS returns from select for this call. -/
def check_descriptors (count : Int) (fds : List Int) (before : Int) (select : Int) : Selected :=
  let filled := fd_set_loop fds before (count + 1).toNat count [] []
  { result := select, readfs := filled.1, accessed := filled.2 }

end Source

end XBee

namespace XBee

/-! ## Basic facts about the model -/

theorem check_descriptors_result (count : Int) (fds : List Int) (select : Int) :
    (check_descriptors count fds select).result = select := rfl

/-- A length below 2^31 is kept by the conversion to int. -/
theorem to_int_of_lt (n : Nat) (h : n < 2147483648) : to_int n = (n : Int) := by
  unfold to_int
  have h1 : n % 4294967296 = n := Nat.mod_eq_of_lt (by omega)
  rw [h1, if_pos h]

theorem set_length_append (done : List Nat) (t v : Nat) (ts : List Nat) :
    (done ++ t :: ts).set done.length v = done ++ v :: ts := by
  induction done with
  | nil => rfl
  | cons d ds ih => simp [List.set, ih]

theorem noReadError_cons (q : Poll) (rest : List Poll) :
    noReadError (q :: rest) ↔ (q.ready > 0 → q.rd ≠ ReadResult.error) ∧ noReadError rest := by
  simp [noReadError]

theorem noReadError_nil : noReadError [] := by
  simp [noReadError]

theorem noReadError_append (a b : List Poll) :
    noReadError (a ++ b) ↔ noReadError a ∧ noReadError b := by
  simp only [noReadError, List.mem_append]
  constructor
  · intro h
    exact ⟨fun q hq => h q (Or.inl hq), fun q hq => h q (Or.inr hq)⟩
  · rintro ⟨h1, h2⟩ q (hq | hq)
    · exact h1 q hq
    · exact h2 q hq

/-- One turn of the loop that stores nothing: select was not positive, or read
returned 0. -/
theorem read_loop_skip (fds : List Int) (q : Poll) (rest : List Poll) (rx_char index : Nat)
    (buffer : List Nat) (hc : rx_char ≠ CR) (hq : ¬ (q.ready > 0 ∧ q.rd.ret ≠ 0)) :
    read_loop fds (q :: rest) rx_char index buffer = read_loop fds rest rx_char index buffer := by
  rw [read_loop]
  simp only [hc, if_false, check_descriptors_result]
  by_cases h1 : q.ready > 0
  · have h2 : ¬ q.rd.ret ≠ 0 := fun h => hq ⟨h1, h⟩
    simp [h1, h2]
  · simp [h1]

/-- One turn of the loop that stores a byte inside the array. -/
theorem read_loop_store (fds : List Int) (q : Poll) (rest : List Poll) (rx_char index : Nat)
    (buffer : List Nat) (hc : rx_char ≠ CR) (h1 : q.ready > 0) (h2 : q.rd.ret ≠ 0)
    (hi : index < buffer.length) :
    read_loop fds (q :: rest) rx_char index buffer =
      read_loop fds rest (q.rd.store rx_char) (index + 1)
        (buffer.set index (if q.rd.store rx_char = CR then 0 else q.rd.store rx_char)) := by
  rw [read_loop]
  simp only [hc, if_false, check_descriptors_result]
  simp [h1, h2, hi]

/-- One turn of the loop that stores a byte past the end of the array. -/
theorem read_loop_overrun (fds : List Int) (q : Poll) (rest : List Poll) (rx_char index : Nat)
    (buffer : List Nat) (hc : rx_char ≠ CR) (h1 : q.ready > 0) (h2 : q.rd.ret ≠ 0)
    (hi : ¬ index < buffer.length) :
    read_loop fds (q :: rest) rx_char index buffer = Run.overrun index := by
  rw [read_loop]
  simp only [hc, if_false, check_descriptors_result]
  simp [h1, h2, hi]

theorem read_loop_exit (fds : List Int) (polls : List Poll) (index : Nat) (buffer : List Nat) :
    read_loop fds polls CR index buffer = Run.returned (buffer, polls) := by
  cases polls <;> simp [read_loop]

end XBee

namespace XBee

/-! ## Reading one line -/

/-- The loop over a schedule that delivers the bytes of a line without CR and
then a CR: the line is stored from the current index, NUL takes the place of
the CR, and the loop exits right after the poll that gave the CR. -/
theorem read_loop_line (fds : List Int) (rest : List Poll) (r : Int) (hr : r > 0) :
    ∀ (pre : List Poll) (line : List Nat) (rx_char : Nat) (done tail : List Nat),
      noReadError pre → delivered pre = line → CR ∉ line → rx_char ≠ CR →
      line.length < tail.length →
      read_loop fds (pre ++ { ready := r, rd := .byte CR } :: rest) rx_char done.length
          (done ++ tail) =
        Run.returned (done ++ line ++ 0 :: tail.drop (line.length + 1), rest) := by
  intro pre
  induction pre with
  | nil =>
    intro line rx_char done tail _ hdel _ hc hlen
    simp only [delivered] at hdel
    subst hdel
    cases tail with
    | nil => simp at hlen
    | cons t ts =>
      have hi : done.length < (done ++ t :: ts).length := by simp
      have h2 : (Poll.mk r (.byte CR)).rd.ret ≠ 0 := by simp [ReadResult.ret]
      rw [List.nil_append, read_loop_store fds _ rest rx_char done.length _ hc hr h2 hi]
      simp [ReadResult.store, set_length_append, read_loop_exit]
  | cons q pre ih =>
    intro line rx_char done tail herr hdel hline hc hlen
    rw [noReadError_cons] at herr
    obtain ⟨hq, herr⟩ := herr
    rw [List.cons_append]
    by_cases hs : q.ready > 0 ∧ q.rd.ret ≠ 0
    · obtain ⟨h1, h2⟩ := hs
      cases hrd : q.rd with
      | error => exact absurd hrd (hq h1)
      | nothing => simp [hrd, ReadResult.ret] at h2
      | byte b =>
        simp only [delivered, hrd, h1, if_true] at hdel
        subst hdel
        have hb : b ≠ CR := fun h => hline (by simp [h])
        have hline2 : CR ∉ delivered pre := fun h => hline (by simp [h])
        cases tail with
        | nil => simp at hlen
        | cons t ts =>
          have hi : done.length < (done ++ t :: ts).length := by simp
          rw [read_loop_store fds q _ rx_char done.length _ hc h1 h2 hi]
          simp only [hrd, ReadResult.store, hb, if_false, set_length_append]
          have hlen2 : (delivered pre).length < ts.length := by
            simpa using hlen
          have := ih (delivered pre) b (done ++ [b]) ts herr rfl hline2 hb hlen2
          simp only [List.length_append, List.length_singleton, List.append_assoc,
            List.singleton_append] at this
          rw [this]
          simp
    · rw [read_loop_skip fds q _ rx_char done.length _ hc hs]
      have hdel2 : delivered pre = line := by
        rw [← hdel]
        cases hrd : q.rd with
        | error => simp [delivered, hrd]
        | nothing => simp [delivered, hrd]
        | byte b =>
          have h1 : ¬ q.ready > 0 := fun h => hs ⟨h, by simp [hrd, ReadResult.ret]⟩
          simp [delivered, hrd, h1]
      exact ih line rx_char done tail herr hdel2 hline hc hlen

/-- A schedule without read errors whose bytes are a line without CR, a CR and
more bytes splits at the poll that gives the CR. -/
theorem schedule_split :
    ∀ (s : List Poll) (line more : List Nat),
      noReadError s → delivered s = line ++ CR :: more → CR ∉ line →
      ∃ (pre : List Poll) (r : Int) (post : List Poll),
        s = pre ++ { ready := r, rd := .byte CR } :: post ∧ r > 0 ∧
        noReadError pre ∧ delivered pre = line ∧
        noReadError post ∧ delivered post = more := by
  intro s
  induction s with
  | nil =>
    intro line more _ hdel _
    simp [delivered] at hdel
  | cons q s ih =>
    intro line more herr hdel hline
    rw [noReadError_cons] at herr
    obtain ⟨hq, herr⟩ := herr
    by_cases hs : ∃ b, q.rd = .byte b ∧ q.ready > 0
    · obtain ⟨b, hrd, h1⟩ := hs
      simp only [delivered, hrd, h1, if_true] at hdel
      cases line with
      | nil =>
        simp only [List.nil_append, List.cons.injEq] at hdel
        obtain ⟨hb, hmore⟩ := hdel
        refine ⟨[], q.ready, s, ?_, h1, noReadError_nil, rfl, herr, hmore⟩
        cases q
        simp_all
      | cons c line =>
        simp only [List.cons_append, List.cons.injEq] at hdel
        obtain ⟨hb, hdel⟩ := hdel
        have hline2 : CR ∉ line := fun h => hline (by simp [h])
        obtain ⟨pre, r, post, hsplit, hr, hpre, hdpre, hpost, hdpost⟩ :=
          ih line more herr hdel hline2
        refine ⟨q :: pre, r, post, by simp [hsplit], hr, ?_, ?_, hpost, hdpost⟩
        · rw [noReadError_cons]
          exact ⟨hq, hpre⟩
        · simp [delivered, hrd, h1, hb, hdpre]
    · have hdel2 : delivered s = line ++ CR :: more := by
        rw [← hdel]
        cases hrd : q.rd with
        | error => simp [delivered, hrd]
        | nothing => simp [delivered, hrd]
        | byte b =>
          have h1 : ¬ q.ready > 0 := fun h => hs ⟨b, hrd, h⟩
          simp [delivered, hrd, h1]
      obtain ⟨pre, r, post, hsplit, hr, hpre, hdpre, hpost, hdpost⟩ :=
        ih line more herr hdel2 hline
      refine ⟨q :: pre, r, post, by simp [hsplit], hr, ?_, ?_, hpost, hdpost⟩
      · rw [noReadError_cons]
        exact ⟨hq, hpre⟩
      · rw [← hdpre]
        cases hrd : q.rd with
        | error => simp [delivered, hrd]
        | nothing => simp [delivered, hrd]
        | byte b =>
          have h1 : ¬ q.ready > 0 := fun h => hs ⟨b, hrd, h⟩
          simp [delivered, hrd, h1]

end XBee

namespace XBee

/-- read_port on a world whose schedule gives a line without CR and then a CR:
it returns 0 with the line and a NUL at the start of the array, and has used
the schedule up to the CR. -/
theorem read_port_line (fds : List Int) (rx_char : Nat) (buffer : List Nat) (p : Port)
    (pre rest : List Poll) (r : Int) (line : List Nat) (hr : r > 0)
    (hp : p.polls = pre ++ { ready := r, rd := .byte CR } :: rest)
    (herr : noReadError pre) (hdel : delivered pre = line) (hline : CR ∉ line)
    (hc : rx_char ≠ CR) (hlen : line.length < buffer.length) :
    read_port fds rx_char buffer p =
      Run.returned (0, line ++ 0 :: buffer.drop (line.length + 1), { p with polls := rest }) := by
  have h := read_loop_line fds rest r hr pre line rx_char [] buffer herr hdel hline hc hlen
  simp only [List.length_nil, List.nil_append] at h
  simp [read_port, hp, h, Run.bind]

/-- The result of strncmp( rx, "OK", 2 ) is 0 exactly when the first two
characters of rx are O and K. -/
theorem strncmp_OK_eq_zero (s : List Nat) :
    strncmp s lit_OK 2 = 0 ↔ s.headD 0 = 79 ∧ s.tail.headD 0 = 75 := by
  simp only [strncmp, lit_OK, List.headD_cons, List.tail_cons]
  generalize s.headD 0 = a
  generalize s.tail.headD 0 = b
  split_ifs <;> omega

/-- The first two characters of a stored line (the line, then NUL) are O and K
exactly when the line starts with OK. -/
theorem stored_line_OK (line tail : List Nat) (hline : CR ∉ line) :
    ((line ++ 0 :: tail).headD 0 = 79 ∧ (line ++ 0 :: tail).tail.headD 0 = 75) ↔
      line.take 2 = [79, 75] := by
  cases line with
  | nil => simp
  | cons a line =>
    cases line with
    | nil => simp
    | cons b line => simp

theorem write_port_fst (buffer : List Nat) (p : Port) :
    (write_port buffer p).1 = 0 ∨ (write_port buffer p).1 = 1 := by
  unfold write_port
  by_cases h : (os_write (List.take (strlen buffer) buffer) p).1 < 0 <;> simp [h]

theorem write_port_polls (buffer : List Nat) (p : Port) :
    (write_port buffer p).2.polls = p.polls := by
  unfold write_port os_write
  cases hw : p.writes <;> simp <;> split <;> rfl

theorem write_port_descriptor (buffer : List Nat) (p : Port) :
    (write_port buffer p).2.port_descriptor = p.port_descriptor := by
  unfold write_port os_write
  cases hw : p.writes <;> simp <;> split <;> rfl

theorem write_port_sent (buffer : List Nat) (p : Port) :
    (write_port buffer p).2.sent = p.sent ++ [buffer.take (strlen buffer)] := by
  unfold write_port os_write
  cases hw : p.writes <;> simp <;> split <;> rfl

theorem write_port_writes (buffer : List Nat) (p : Port) :
    (write_port buffer p).2.writes = p.writes.tail := by
  unfold write_port os_write
  cases hw : p.writes <;> simp <;> split <;> simp [hw]

/-- write_port returns 0 when the OS write does not report a negative count. -/
theorem write_port_ok (buffer : List Nat) (p : Port) (h : ∀ r ∈ p.writes, 0 ≤ r) :
    (write_port buffer p).1 = 0 := by
  unfold write_port os_write
  cases hw : p.writes with
  | nil =>
    have : ¬ ((List.take (strlen buffer) buffer).length : Int) < 0 := by omega
    simp only [this, if_false]
  | cons r rs =>
    have h0 : 0 ≤ r := h r (by simp [hw])
    have : ¬ r < 0 := by omega
    simp only [this, if_false]

end XBee

namespace XBee

/-! ## The command-mode functions on one line -/

/-- write_port when no scheduled write fails: the bytes before the NUL are
handed to write once and 0 is returned. -/
theorem write_port_eq_of_ok (buffer : List Nat) (p : Port) (h : ∀ r ∈ p.writes, 0 ≤ r) :
    write_port buffer p =
      (0, { p with writes := p.writes.tail, sent := p.sent ++ [buffer.take (strlen buffer)] }) := by
  unfold write_port os_write
  cases hw : p.writes with
  | nil =>
    have : ¬ ((List.take (strlen buffer) buffer).length : Int) < 0 := by omega
    simp only [this, if_false, List.tail_nil]
  | cons r rs =>
    have h0 : 0 ≤ r := h r (by simp [hw])
    have : ¬ r < 0 := by omega
    simp only [this, if_false, List.tail_cons]

/-- write_port when the next scheduled write fails: 1 is returned. -/
theorem write_port_eq_of_fail (buffer : List Nat) (p : Port) (r : Int) (rs : List Int)
    (hw : p.writes = r :: rs) (hr : r < 0) :
    write_port buffer p =
      (1, { p with writes := rs, sent := p.sent ++ [buffer.take (strlen buffer)] }) := by
  unfold write_port os_write
  simp only [hw, hr, if_true]

/-- enter_command_mode after a successful guard write, on a schedule that
gives a line and its CR: the result is the strncmp of the stored line. -/
theorem enter_command_mode_line (l : Locals) (p : Port) (pre rest : List Poll) (r : Int)
    (line : List Nat) (hw : (write_port lit_guard p).1 = 0) (hr : r > 0)
    (hp : p.polls = pre ++ { ready := r, rd := .byte CR } :: rest)
    (herr : noReadError pre) (hdel : delivered pre = line) (hline : CR ∉ line)
    (hc : l.rx_char ≠ CR) (hlen : line.length < l.rx.length) :
    enter_command_mode l p =
      Run.returned (strncmp (line ++ 0 :: l.rx.drop (line.length + 1)) lit_OK 2,
        { (write_port lit_guard p).2 with polls := rest }) := by
  have hpolls : (write_port lit_guard p).2.polls =
      pre ++ { ready := r, rd := .byte CR } :: rest := by
    rw [write_port_polls, hp]
  have hread := read_port_line [p.port_descriptor] l.rx_char l.rx (write_port lit_guard p).2
    pre rest r line hr hpolls herr hdel hline hc hlen
  simp only [enter_command_mode, hw, if_true, hread, Run.bind]
  simp

/-- exit_command_mode after a successful write, on a schedule that gives a
line and its CR: the result is the truth value of the comparison with OK. -/
theorem exit_command_mode_line (l : Locals) (p : Port) (pre rest : List Poll) (r : Int)
    (line : List Nat) (hw : (write_port lit_atcn p).1 = 0) (hr : r > 0)
    (hp : p.polls = pre ++ { ready := r, rd := .byte CR } :: rest)
    (herr : noReadError pre) (hdel : delivered pre = line) (hline : CR ∉ line)
    (hc : l.rx_char ≠ CR) (hlen : line.length < l.rx.length) :
    exit_command_mode l p =
      Run.returned
        ((if strncmp (line ++ 0 :: l.rx.drop (line.length + 1)) lit_OK 2 = 0 then 1 else 0),
        { (write_port lit_atcn p).2 with polls := rest }) := by
  have hpolls : (write_port lit_atcn p).2.polls =
      pre ++ { ready := r, rd := .byte CR } :: rest := by
    rw [write_port_polls, hp]
  have hread := read_port_line [p.port_descriptor] l.rx_char l.rx (write_port lit_atcn p).2
    pre rest r line hr hpolls herr hdel hline hc hlen
  simp only [exit_command_mode, hw, if_true, hread, Run.bind]
  simp

/-! ## Claims about command mode -/

/-- C1. enter_command_mode, entered with rx_char not CR, on a port that after
the guard write delivers a response line (at most 254 bytes, without CR) and
its CR: it returns, and the value returned is 0 if and only if write_port
succeeded and the first two bytes of the line are O and K. Every other line,
the empty line and the line "O" included, gives a non-zero value. -/
theorem enter_command_mode_zero_iff_OK (l : Locals) (p : Port) (sched rest : List Poll)
    (line : List Nat) (hrx : l.rx.length = MAX_BUFFER_SIZE) (hc : l.rx_char ≠ CR)
    (hline : CR ∉ line) (hlen : line.length ≤ 254)
    (hp : p.polls = sched ++ rest) (herr : noReadError sched)
    (hdel : delivered sched = line ++ [CR]) :
    ∃ (v : Int) (p1 : Port), enter_command_mode l p = Run.returned (v, p1) ∧
      (v = 0 ↔ (write_port lit_guard p).1 = 0 ∧ line.take 2 = [79, 75]) := by
  obtain ⟨pre, r, post, hsplit, hr, hpre, hdpre, _, _⟩ :=
    schedule_split sched line [] herr hdel hline
  have hlen2 : line.length < l.rx.length := by
    rw [hrx, MAX_BUFFER_SIZE]
    omega
  rcases write_port_fst lit_guard p with hw | hw
  · have hp2 : p.polls = pre ++ { ready := r, rd := .byte CR } :: (post ++ rest) := by
      rw [hp, hsplit]
      simp
    refine ⟨strncmp (line ++ 0 :: l.rx.drop (line.length + 1)) lit_OK 2,
      { (write_port lit_guard p).2 with polls := post ++ rest },
      enter_command_mode_line l p pre (post ++ rest) r line hw hr hp2 hpre hdpre hline hc hlen2,
      ?_⟩
    rw [strncmp_OK_eq_zero, stored_line_OK line _ hline]
    simp [hw]
  · refine ⟨-1, (write_port lit_guard p).2, ?_, ?_⟩
    · simp [enter_command_mode, hw]
    · simp [hw]

/-- Witness for C1: the reply "OK" after a successful guard write. -/
theorem enter_command_mode_zero_iff_OK_witness :
    ∃ (v : Int) (p1 : Port),
      enter_command_mode { rx_char := 0, rx := List.replicate 255 0 }
        { port_descriptor := 3, writes := [3], polls := [gives 79, gives 75, gives 13],
          sent := [] } = Run.returned (v, p1) ∧
      (v = 0 ↔ (write_port lit_guard
        { port_descriptor := 3, writes := [3], polls := [gives 79, gives 75, gives 13],
          sent := [] }).1 = 0 ∧ List.take 2 [79, 75] = [79, 75]) :=
  enter_command_mode_zero_iff_OK { rx_char := 0, rx := List.replicate 255 0 }
    { port_descriptor := 3, writes := [3], polls := [gives 79, gives 75, gives 13], sent := [] }
    [gives 79, gives 75, gives 13] [] [79, 75] (List.length_replicate 255 0) (by decide)
    (by decide) (by decide) rfl (by decide) (by decide)

set_option maxRecDepth 20000 in
/-- C2 (the code at the failing input). exit_command_mode writes "atcn\r" and
reads one line, but when that line is "OK" it returns 1, and when the line is
"ERROR" it returns 0: the result is the truth value of the comparison, the
reverse of the documented 0 for success. -/
theorem exit_command_mode_returns_one_on_OK :
    exit_command_mode { rx_char := 0, rx := List.replicate 255 0 }
        { port_descriptor := 3, writes := [], polls := [gives 79, gives 75, gives 13],
          sent := [] } =
      Run.returned (1, Port.mk 3 [] [] [[97, 116, 99, 110, 13]]) ∧
    exit_command_mode { rx_char := 0, rx := List.replicate 255 0 }
        { port_descriptor := 3, writes := [],
          polls := [gives 69, gives 82, gives 82, gives 79, gives 82, gives 13], sent := [] } =
      Run.returned (0, Port.mk 3 [] [] [[97, 116, 99, 110, 13]]) := by
  constructor <;> decide

end XBee

namespace XBee

/-- The run of get_ip without a failed read: on a port where every write
succeeds and the peer sends "OK", CR, an address line A (no CR, at most 254
bytes), CR, "OK", CR, each read_port being entered with rx_char not CR and no
read failing, get_ip returns 0, the caller's array starts with A and a NUL,
and the writes issued are exactly "+++", "atmy\r", "atcn\r" in this order. -/
theorem get_ip_returns_address (e x : Locals) (rx_char : Nat) (buffer : List Nat) (p : Port)
    (A : List Nat) (he : e.rx.length = MAX_BUFFER_SIZE) (hx : x.rx.length = MAX_BUFFER_SIZE)
    (hbuf : buffer.length = MAX_BUFFER_SIZE)
    (hec : e.rx_char ≠ CR) (hc : rx_char ≠ CR) (hxc : x.rx_char ≠ CR)
    (hA : CR ∉ A) (hlen : A.length ≤ 254)
    (hw : ∀ r ∈ p.writes, 0 ≤ r) (herr : noReadError p.polls)
    (hdel : delivered p.polls = [79, 75, 13] ++ A ++ [13] ++ [79, 75, 13]) :
    ∃ p1 : Port,
      get_ip e rx_char x buffer p =
        Run.returned (0, A ++ 0 :: buffer.drop (A.length + 1), p1) ∧
      p1.sent = p.sent ++ [[43, 43, 43], [97, 116, 109, 121, 13], [97, 116, 99, 110, 13]] ∧
      delivered p1.polls = [] := by
  have hOK : CR ∉ [79, 75] := by decide
  have hdel1 : delivered p.polls = [79, 75] ++ CR :: (A ++ CR :: ([79, 75] ++ CR :: [])) := by
    rw [hdel]
    simp [CR]
  obtain ⟨pre1, r1, post1, hs1, hr1, hpre1, hd1, hpost1, hdp1⟩ :=
    schedule_split p.polls [79, 75] _ herr hdel1 hOK
  obtain ⟨pre2, r2, post2, hs2, hr2, hpre2, hd2, hpost2, hdp2⟩ :=
    schedule_split post1 A _ hpost1 hdp1 hA
  obtain ⟨pre3, r3, post3, hs3, hr3, hpre3, hd3, _, hdp3⟩ :=
    schedule_split post2 [79, 75] _ hpost2 hdp2 hOK
  have hshort : ([79, 75] : List Nat).length < 255 := by decide
  -- entering command mode
  have hw1 := write_port_eq_of_ok lit_guard p hw
  have h1 := enter_command_mode_line e p pre1 post1 r1 [79, 75] (by rw [hw1]) hr1 hs1 hpre1 hd1
    hOK hec (by rw [he]; exact hshort)
  rw [hw1] at h1
  -- the query
  have hwt : ∀ r ∈ p.writes.tail, 0 ≤ r := fun r hr => hw r (List.mem_of_mem_tail hr)
  have hw2 := write_port_eq_of_ok lit_atmy
    { p with writes := p.writes.tail, sent := p.sent ++ [lit_guard.take (strlen lit_guard)],
             polls := post1 } hwt
  have h2 := read_port_line [p.port_descriptor] rx_char buffer
    { p with writes := p.writes.tail.tail,
             sent := p.sent ++ [lit_guard.take (strlen lit_guard)] ++
               [lit_atmy.take (strlen lit_atmy)],
             polls := post1 } pre2 post2 r2 A hr2 hs2 hpre2 hd2 hA hc
    (by rw [hbuf, MAX_BUFFER_SIZE]; omega)
  -- leaving command mode
  have hwtt : ∀ r ∈ p.writes.tail.tail, 0 ≤ r := fun r hr => hwt r (List.mem_of_mem_tail hr)
  have hw3 := write_port_eq_of_ok lit_atcn
    { p with writes := p.writes.tail.tail,
             sent := p.sent ++ [lit_guard.take (strlen lit_guard)] ++
               [lit_atmy.take (strlen lit_atmy)],
             polls := post2 } hwtt
  have h3 := exit_command_mode_line x
    { p with writes := p.writes.tail.tail,
             sent := p.sent ++ [lit_guard.take (strlen lit_guard)] ++
               [lit_atmy.take (strlen lit_atmy)],
             polls := post2 } pre3 post3 r3 [79, 75] (by rw [hw3]) hr3 hs3 hpre3 hd3
    hOK hxc (by rw [hx]; exact hshort)
  rw [hw3] at h3
  have hcmp : ∀ t : List Nat, strncmp ([79, 75] ++ 0 :: t) lit_OK 2 = 0 := fun t => by
    rw [strncmp_OK_eq_zero]
    simp
  refine ⟨Port.mk p.port_descriptor p.writes.tail.tail.tail post3
    (p.sent ++ [lit_guard.take (strlen lit_guard)] ++ [lit_atmy.take (strlen lit_atmy)] ++
      [lit_atcn.take (strlen lit_atcn)]), ?_, ?_, ?_⟩
  · simp only [get_ip, h1, Run.bind, hcmp, if_true, hw2]
    simp only [h2, Run.bind]
    simp only [ne_eq, not_true_eq_false, if_false, h3, Run.bind]
  · simp [lit_guard, lit_atmy, lit_atcn, strlen, cstr]
  · exact hdp3

end XBee

namespace XBee

/-- The run of get_ip without a failed read at the address line "1234", with an
idle poll and an empty read in between. -/
theorem get_ip_returns_address_witness :
    ∃ p1 : Port,
      get_ip { rx_char := 0, rx := List.replicate 255 0 } 0
          { rx_char := 0, rx := List.replicate 255 0 } (List.replicate 255 0)
          (Port.mk 3 [3, 5, 5]
            [gives 79, gives 75, gives 13, Poll.mk 0 .nothing, gives 49, gives 50,
              Poll.mk 1 .nothing, gives 51, gives 52, gives 13, gives 79, gives 75, gives 13]
            []) =
        Run.returned (0, [49, 50, 51, 52] ++ 0 :: (List.replicate 255 0).drop
          ([49, 50, 51, 52].length + 1), p1) ∧
      p1.sent = [] ++ [[43, 43, 43], [97, 116, 109, 121, 13], [97, 116, 99, 110, 13]] ∧
      delivered p1.polls = [] :=
  get_ip_returns_address { rx_char := 0, rx := List.replicate 255 0 }
    { rx_char := 0, rx := List.replicate 255 0 } 0 (List.replicate 255 0)
    (Port.mk 3 [3, 5, 5]
      [gives 79, gives 75, gives 13, Poll.mk 0 .nothing, gives 49, gives 50,
        Poll.mk 1 .nothing, gives 51, gives 52, gives 13, gives 79, gives 75, gives 13]
      [])
    [49, 50, 51, 52] (List.length_replicate 255 0) (List.length_replicate 255 0)
    (List.length_replicate 255 0) (by decide) (by decide) (by decide) (by decide) (by decide)
    (by decide) (by decide) (by decide)

set_option maxRecDepth 20000 in
/-- C3 (the code at the failing input). Every write succeeds and the peer
sends "OK", CR, "12", CR, "OK", CR. When one read between the 1 and the 2
fails with -1, get_ip returns 0 and the caller's array holds "112": the failed
read stored the 1 a second time. When the read_port call of get_ip is entered
with rx_char holding CR, get_ip returns 0 with the caller's array untouched
and the reply to "atcn\r" unread. -/
theorem get_ip_address_not_delivered :
    delivered [gives 79, gives 75, gives 13, gives 49, Poll.mk 1 .error, gives 50, gives 13,
        gives 79, gives 75, gives 13] = [79, 75, 13] ++ [49, 50] ++ [13] ++ [79, 75, 13] ∧
    get_ip { rx_char := 0, rx := List.replicate 255 0 } 0
        { rx_char := 0, rx := List.replicate 255 0 } (List.replicate 255 9)
        (Port.mk 3 []
          [gives 79, gives 75, gives 13, gives 49, Poll.mk 1 .error, gives 50, gives 13,
            gives 79, gives 75, gives 13] []) =
      Run.returned (0, 49 :: 49 :: 50 :: 0 :: List.replicate 251 9, Port.mk 3 [] []
        [[43, 43, 43], [97, 116, 109, 121, 13], [97, 116, 99, 110, 13]]) ∧
    get_ip { rx_char := 0, rx := List.replicate 255 0 } 13
        { rx_char := 0, rx := List.replicate 255 0 } (List.replicate 255 9)
        (Port.mk 3 []
          [gives 79, gives 75, gives 13, gives 49, gives 50, gives 13,
            gives 79, gives 75, gives 13] []) =
      Run.returned (0, List.replicate 255 9, Port.mk 3 [] [gives 79, gives 75, gives 13]
        [[43, 43, 43], [97, 116, 109, 121, 13], [97, 116, 99, 110, 13]]) := by
  decide

set_option maxRecDepth 20000 in
/-- C4 (the code at the failing input). The peer answers "OK" to the guard
and the write of "atmy\r" fails: get_ip returns -2 at once. The only writes
are "+++" and "atmy\r"; no "atcn\r" is written and nothing more is read, so
exit_command_mode is not attempted. -/
theorem get_ip_write_failure_skips_exit :
    get_ip { rx_char := 0, rx := List.replicate 255 0 } 0
        { rx_char := 0, rx := List.replicate 255 0 } (List.replicate 255 0)
        (Port.mk 3 [3, -1] [gives 79, gives 75, gives 13, gives 79, gives 75, gives 13] []) =
      Run.returned (-2, List.replicate 255 0,
        Port.mk 3 [] [gives 79, gives 75, gives 13] [[43, 43, 43], [97, 116, 109, 121, 13]]) := by
  decide

/-- C5. Whenever enter_command_mode returns a non-zero value, get_ip returns
-1 with the caller's array as it was and the world exactly as
enter_command_mode left it: nothing further is written or read. -/
theorem get_ip_aborts_when_enter_fails (e x : Locals) (rx_char : Nat) (buffer : List Nat)
    (p : Port) (v : Int) (p1 : Port) (h : enter_command_mode e p = Run.returned (v, p1))
    (hv : v ≠ 0) :
    get_ip e rx_char x buffer p = Run.returned (-1, buffer, p1) := by
  simp [get_ip, h, Run.bind, hv]

set_option maxRecDepth 20000 in
/-- Witness for C5: the peer answers "ERROR" to the guard, and the guard write
fails. -/
theorem get_ip_aborts_when_enter_fails_witness :
    get_ip { rx_char := 0, rx := List.replicate 255 0 } 0
        { rx_char := 0, rx := List.replicate 255 0 } [1, 2, 3]
        (Port.mk 3 [] [gives 69, gives 82, gives 13, gives 79, gives 75, gives 13] []) =
      Run.returned (-1, [1, 2, 3], Port.mk 3 [] [gives 79, gives 75, gives 13] [[43, 43, 43]]) ∧
    get_ip { rx_char := 0, rx := List.replicate 255 0 } 0
        { rx_char := 0, rx := List.replicate 255 0 } [1, 2, 3]
        (Port.mk 3 [-1] [gives 79, gives 75, gives 13] []) =
      Run.returned (-1, [1, 2, 3], Port.mk 3 [] [gives 79, gives 75, gives 13] [[43, 43, 43]]) :=
  ⟨get_ip_aborts_when_enter_fails _ _ 0 [1, 2, 3] _ (-10) _ (by decide) (by decide),
   get_ip_aborts_when_enter_fails _ _ 0 [1, 2, 3] _ (-1) _ (by decide) (by decide)⟩

end XBee

namespace XBee

/-! ## Claims about read_port -/

/-- C6. Round trip of the framing: for every payload without CR of length
n ≤ 254 and every schedule of select results and empty reads without a failed
read that delivers the payload and then CR, read_port entered with rx_char not
CR returns 0, the array holds the payload in [0, n) and NUL at n, the rest of
the array is untouched, and the CR is not stored. -/
theorem read_port_round_trip (fds : List Int) (rx_char : Nat) (buffer : List Nat) (p : Port)
    (payload : List Nat) (hbuf : buffer.length = MAX_BUFFER_SIZE) (hc : rx_char ≠ CR)
    (hpay : CR ∉ payload) (hlen : payload.length ≤ 254)
    (herr : noReadError p.polls) (hdel : delivered p.polls = payload ++ [CR]) :
    ∃ rest : List Poll,
      read_port fds rx_char buffer p =
        Run.returned (0, payload ++ 0 :: buffer.drop (payload.length + 1),
          { p with polls := rest }) ∧
      delivered rest = [] := by
  obtain ⟨pre, r, post, hsplit, hr, hpre, hdpre, _, hdpost⟩ :=
    schedule_split p.polls payload [] herr hdel hpay
  have hlen2 : payload.length < buffer.length := by
    rw [hbuf, MAX_BUFFER_SIZE]
    omega
  exact ⟨post, read_port_line fds rx_char buffer p pre post r payload hr hsplit hpre hdpre hpay
    hc hlen2, hdpost⟩

/-- Witness for C6: the payload "12" between a timed-out select, a failed
select and an empty read. -/
theorem read_port_round_trip_witness :
    ∃ rest : List Poll,
      read_port [3] 0 (List.replicate 255 7)
          (Port.mk 3 [] [Poll.mk 0 .nothing, gives 49, Poll.mk (-1) .error, Poll.mk 1 .nothing,
            gives 50, gives 13, Poll.mk 0 .nothing] []) =
        Run.returned (0, [49, 50] ++ 0 :: (List.replicate 255 7).drop ([49, 50].length + 1),
          { Port.mk 3 [] [Poll.mk 0 .nothing, gives 49, Poll.mk (-1) .error, Poll.mk 1 .nothing,
            gives 50, gives 13, Poll.mk 0 .nothing] [] with polls := rest }) ∧
      delivered rest = [] :=
  read_port_round_trip [3] 0 (List.replicate 255 7)
    (Port.mk 3 [] [Poll.mk 0 .nothing, gives 49, Poll.mk (-1) .error, Poll.mk 1 .nothing,
      gives 50, gives 13, Poll.mk 0 .nothing] [])
    [49, 50] (List.length_replicate 255 7) (by decide) (by decide) (by decide) (by decide)
    (by decide)

set_option maxRecDepth 20000 in
/-- C7 (the code at the failing input). select reports the port ready and
the read fails with -1, then a CR arrives: read_port returns 0. The failed
read counts as a byte: the value rx_char held before (here 65) is stored at
index 0 and the index advances, so the NUL lands at index 1. -/
theorem read_port_failed_read_returns_zero :
    read_port [3] 65 (List.replicate 255 7)
        (Port.mk 3 [] [Poll.mk 1 .error, gives 13] []) =
      Run.returned (0, 65 :: 0 :: List.replicate 253 7, Port.mk 3 [] [] []) := by
  decide

set_option maxRecDepth 100000 in
/-- C8 (counterexample). A line of 255 bytes before its CR: after filling
indices 0 to 254 of a 255-byte array read_port stores at index 255, outside
the array. -/
theorem read_port_overruns_on_long_line :
    read_port [3] 0 (List.replicate 255 0)
        (Port.mk 3 [] (List.replicate 255 (gives 65) ++ [gives 13]) []) =
      Run.overrun 255 := by
  decide!

/-- The loop stays inside the array whenever the polls up to the one that
delivers CR store no more bytes than there is room from the current index. -/
theorem read_loop_within_bounds (fds : List Int) (rest : List Poll) :
    ∀ (sched : List Poll) (rx_char index : Nat) (buffer : List Nat),
      (rx_char = CR ∨ CR ∈ delivered sched) → index + storing sched ≤ buffer.length →
      ∃ (b : List Nat) (left : List Poll),
        read_loop fds (sched ++ rest) rx_char index buffer = Run.returned (b, left) ∧
        b.length = buffer.length := by
  intro sched
  induction sched with
  | nil =>
    intro rx_char index buffer hcr _
    have hc : rx_char = CR := by simpa [delivered] using hcr
    subst hc
    exact ⟨buffer, _, read_loop_exit fds _ index buffer, rfl⟩
  | cons q s ih =>
    intro rx_char index buffer hcr hroom
    by_cases hc : rx_char = CR
    · subst hc
      exact ⟨buffer, _, read_loop_exit fds _ index buffer, rfl⟩
    · have hin : CR ∈ delivered (q :: s) := hcr.resolve_left hc
      rw [List.cons_append]
      by_cases hs : q.ready > 0 ∧ q.rd.ret ≠ 0
      · have hst : storing (q :: s) = 1 + storing s := by
          simp [storing, hs]
        have hroom2 : index + 1 + storing s ≤ buffer.length := by
          omega
        have hi : index < buffer.length := by omega
        rw [read_loop_store fds q _ rx_char index buffer hc hs.1 hs.2 hi]
        have hcr2 : q.rd.store rx_char = CR ∨ CR ∈ delivered s := by
          cases hrd : q.rd with
          | error => right; simpa [delivered, hrd] using hin
          | nothing => right; simpa [delivered, hrd] using hin
          | byte b =>
            simp only [delivered, hrd, hs.1, if_true, List.mem_cons] at hin
            rcases hin with h | h
            · left; simp [ReadResult.store, h]
            · right; exact h
        obtain ⟨b, left, hb, hl⟩ := ih (q.rd.store rx_char) (index + 1)
          (buffer.set index (if q.rd.store rx_char = CR then 0 else q.rd.store rx_char)) hcr2
          (by rw [List.length_set]; exact hroom2)
        exact ⟨b, left, hb, by rw [hl, List.length_set]⟩
      · rw [read_loop_skip fds q _ rx_char index buffer hc hs]
        have hst : storing (q :: s) = storing s := by
          simp only [storing, hs, if_false, Nat.zero_add]
        have hroom2 : index + storing s ≤ buffer.length := by
          omega
        have hin2 : CR ∈ delivered s := by
          cases hrd : q.rd with
          | error => simpa [delivered, hrd] using hin
          | nothing => simpa [delivered, hrd] using hin
          | byte b =>
            have h1 : ¬ q.ready > 0 := fun h => hs ⟨h, by simp [hrd, ReadResult.ret]⟩
            simpa [delivered, hrd, h1] using hin
        exact ih rx_char index buffer (Or.inr hin2) hroom2

/-- C8 (amended). When the polls up to the one that delivers CR make at most
255 reads return non-zero (a line of at most 254 bytes and its CR), read_port
on a 255-byte array returns 0 with every store inside the array: no index
outside [0, 255) is written. -/
theorem read_port_within_bounds (fds : List Int) (rx_char : Nat) (buffer : List Nat) (p : Port)
    (sched rest : List Poll) (hbuf : buffer.length = MAX_BUFFER_SIZE)
    (hp : p.polls = sched ++ rest) (hcr : CR ∈ delivered sched)
    (hroom : storing sched ≤ MAX_BUFFER_SIZE) :
    (∃ (b : List Nat) (p1 : Port),
      read_port fds rx_char buffer p = Run.returned (0, b, p1) ∧ b.length = MAX_BUFFER_SIZE) ∧
    ∀ i : Nat, read_port fds rx_char buffer p ≠ Run.overrun i := by
  obtain ⟨b, left, hb, hl⟩ := read_loop_within_bounds fds rest sched rx_char 0 buffer
    (Or.inr hcr) (by rw [hbuf]; omega)
  have hread : read_port fds rx_char buffer p =
      Run.returned (0, b, { p with polls := left }) := by
    simp [read_port, hp, hb, Run.bind]
  refine ⟨⟨b, _, hread, by rw [hl, hbuf]⟩, ?_⟩
  intro i
  rw [hread]
  simp

/-- Witness for C8 (amended): two bytes, a failed read and the CR. -/
theorem read_port_within_bounds_witness :
    (∃ (b : List Nat) (p1 : Port),
      read_port [3] 0 (List.replicate 255 0)
          (Port.mk 3 [] [gives 49, gives 50, Poll.mk 1 .error, gives 13, gives 79] []) =
        Run.returned (0, b, p1) ∧ b.length = MAX_BUFFER_SIZE) ∧
    ∀ i : Nat, read_port [3] 0 (List.replicate 255 0)
        (Port.mk 3 [] [gives 49, gives 50, Poll.mk 1 .error, gives 13, gives 79] []) ≠
      Run.overrun i :=
  read_port_within_bounds [3] 0 (List.replicate 255 0)
    (Port.mk 3 [] [gives 49, gives 50, Poll.mk 1 .error, gives 13, gives 79] [])
    [gives 49, gives 50, Poll.mk 1 .error, gives 13] [gives 79]
    (List.length_replicate 255 0) rfl (by decide) (by decide)

end XBee

namespace XBee

/-! ## Claims about init_port -/

theorem cstr_append_nul (s t : List Nat) : cstr (cstr s ++ 0 :: t) = cstr s := by
  induction s with
  | nil => simp [cstr]
  | cons a s ih =>
    by_cases ha : a = 0
    · simp [cstr, ha]
    · simp only [cstr, List.takeWhile_cons, bne_iff_ne, ne_eq, ha, not_false_eq_true,
        decide_True, if_true, List.cons_append] at ih ⊢
      simp [ih]

/-- The content of port_name after a call that passed the length check. -/
theorem init_port_port_name (port : List Nat) (env : InitEnv) (g : Globals)
    (h : strlen port ≤ 255) :
    (init_port port env g).2.1.port_name =
      if strlen port = 0 then strcpy g.port_name lit_default_port
      else strncpy g.port_name port MAX_BUFFER_SIZE := by
  have hti := to_int_of_lt (strlen port) (by omega)
  have h1 : ¬ ((strlen port : Int) > 255) := by omega
  unfold init_port
  simp only [hti, h1, if_false]
  by_cases h0 : strlen port = 0
  · simp only [h0, Nat.cast_zero, if_true]
    split_ifs <;> rfl
  · have h2 : ¬ ((strlen port : Int) = 0) := by omega
    simp only [h0, h2, if_false]
    split_ifs <;> rfl

/-- The first two OS calls of a call that passed the length check. -/
theorem init_port_first_calls (port : List Nat) (env : InitEnv) (g : Globals)
    (h : strlen port ≤ 255) :
    (init_port port env g).2.2.take 2 =
      [OsCall.signal SIGIO SIG_IGN,
        OsCall.sys_open (cstr (init_port port env g).2.1.port_name)
          (O_RDWR ||| O_NOCTTY ||| O_NONBLOCK)] := by
  have hti := to_int_of_lt (strlen port) (by omega)
  have h1 : ¬ ((strlen port : Int) > 255) := by omega
  unfold init_port
  simp only [hti, h1, if_false]
  split_ifs <;> rfl

/-- For every path string of a length above 255 that an int can hold (below
2^31) init_port returns 1 and has done nothing else: no OS call (signal, open,
fcntl, tcflush, tcsetattr) is made and the globals port_name, port_descriptor,
maxfd, timeout and newtio are as before. -/
theorem init_port_rejects_long_path (port : List Nat) (env : InitEnv) (g : Globals)
    (h : strlen port > 255) (hint : strlen port < 2147483648) :
    init_port port env g = (1, g, []) := by
  have hti := to_int_of_lt (strlen port) hint
  have h1 : (strlen port : Int) > 255 := by omega
  unfold init_port
  simp only [hti, h1, if_true]

end XBee

namespace XBee

set_option maxRecDepth 20000 in
/-- The rejection at a path of 256 characters. -/
theorem init_port_rejects_long_path_witness :
    init_port (List.replicate 256 47) (InitEnv.mk 3 0 0 0 1)
        (Globals.mk 7 (List.replicate 255 0) (0, 0) memset_newtio 0) =
      (1, Globals.mk 7 (List.replicate 255 0) (0, 0) memset_newtio 0, []) :=
  init_port_rejects_long_path (List.replicate 256 47) (InitEnv.mk 3 0 0 0 1)
    (Globals.mk 7 (List.replicate 255 0) (0, 0) memset_newtio 0) (by decide) (by decide)

theorem cstr_replicate (n b : Nat) (hb : b ≠ 0) :
    cstr (List.replicate n b) = List.replicate n b := by
  induction n with
  | zero => simp [cstr]
  | succ n ih =>
    simp only [cstr, List.replicate_succ, List.takeWhile_cons] at ih ⊢
    simp [hb, ih]

theorem strlen_replicate (n b : Nat) (hb : b ≠ 0) : strlen (List.replicate n b) = n := by
  rw [strlen, cstr_replicate n b hb, List.length_replicate]

/-- A path whose length the int conversion turns into a value that is not
above 255 and not 0 passes the length check; with every OS call succeeding
init_port then returns 0 after its five OS calls. -/
theorem init_port_passes_converted_length (port : List Nat) (env : InitEnv) (g : Globals)
    (h1 : ¬ to_int (strlen port) > 255) (ho : 0 < env.open_ret) (hf : env.fcntl_ret = 0)
    (ht : env.tcflush_ret = 0) (hs : env.tcsetattr_ret = 0) :
    (init_port port env g).1 = 0 ∧ (init_port port env g).2.2.length = 5 ∧
      (init_port port env g).2.1.port_descriptor = env.open_ret := by
  have ha : ¬ ((env.newtio_addr : Nat) < 1) := by
    have := env.newtio_addr.pos
    omega
  have ho2 : ¬ env.open_ret ≤ 0 := by omega
  simp [init_port, h1, ha, ho2, hf, ht, hs]

/-- C9 (the code at the failing input). For a path of 2^31 characters the int
length holds -2^31, the test length > 255 is false, and init_port does not
return 1: with open, fcntl, tcflush and tcsetattr succeeding it makes its five
OS calls, stores the descriptor and returns 0. -/
theorem init_port_opens_path_of_2_pow_31 :
    strlen (List.replicate 2147483648 47) = 2147483648 ∧
    to_int (strlen (List.replicate 2147483648 47)) = -2147483648 ∧
    (init_port (List.replicate 2147483648 47) (InitEnv.mk 3 0 0 0 1)
        (Globals.mk 7 (List.replicate 255 0) (0, 0) memset_newtio 0)).1 = 0 ∧
    (init_port (List.replicate 2147483648 47) (InitEnv.mk 3 0 0 0 1)
        (Globals.mk 7 (List.replicate 255 0) (0, 0) memset_newtio 0)).2.2.length = 5 ∧
    (init_port (List.replicate 2147483648 47) (InitEnv.mk 3 0 0 0 1)
        (Globals.mk 7 (List.replicate 255 0) (0, 0) memset_newtio 0)).2.1.port_descriptor = 3 := by
  have hlen : strlen (List.replicate 2147483648 47) = 2147483648 :=
    strlen_replicate 2147483648 47 (by decide)
  have hconv : to_int (strlen (List.replicate 2147483648 47)) = -2147483648 := by
    rw [hlen]
    decide
  have hpass : ¬ to_int (strlen (List.replicate 2147483648 47)) > 255 := by
    rw [hconv]
    decide
  exact ⟨hlen, hconv, init_port_passes_converted_length _ (InitEnv.mk 3 0 0 0 1) _ hpass
    (by decide) rfl rfl rfl⟩

/-- C10. After init_port on a path of length at most 254, port_name (still 255
bytes) holds as its string "/dev/ttyUSB0" when the path is empty and the given
path otherwise, and the name handed to open is that string. -/
theorem init_port_sets_port_name (port : List Nat) (env : InitEnv) (g : Globals)
    (hg : g.port_name.length = MAX_BUFFER_SIZE) (hlen : strlen port ≤ 254) :
    cstr (init_port port env g).2.1.port_name =
        (if strlen port = 0 then [47, 100, 101, 118, 47, 116, 116, 121, 85, 83, 66, 48]
         else cstr port) ∧
      (init_port port env g).2.1.port_name.length = MAX_BUFFER_SIZE ∧
      (init_port port env g).2.2.take 2 =
        [OsCall.signal SIGIO SIG_IGN,
          OsCall.sys_open
            (if strlen port = 0 then [47, 100, 101, 118, 47, 116, 116, 121, 85, 83, 66, 48]
             else cstr port)
            (O_RDWR ||| O_NOCTTY ||| O_NONBLOCK)] := by
  have h255 : strlen port ≤ 255 := by omega
  have hname : cstr (init_port port env g).2.1.port_name =
      (if strlen port = 0 then [47, 100, 101, 118, 47, 116, 116, 121, 85, 83, 66, 48]
       else cstr port) := by
    rw [init_port_port_name port env g h255]
    by_cases h0 : strlen port = 0
    · simp only [h0, if_true]
      have hd : cstr lit_default_port = [47, 100, 101, 118, 47, 116, 116, 121, 85, 83, 66, 48] := by
        decide
      rw [strcpy, List.append_assoc, List.singleton_append, cstr_append_nul, hd]
    · simp only [h0, if_false]
      have hl : (cstr port).length ≤ 254 := hlen
      have hrep : List.replicate (MAX_BUFFER_SIZE - (cstr port).length) 0 =
          0 :: List.replicate (MAX_BUFFER_SIZE - (cstr port).length - 1) 0 := by
        have : MAX_BUFFER_SIZE - (cstr port).length =
            (MAX_BUFFER_SIZE - (cstr port).length - 1) + 1 := by
          rw [MAX_BUFFER_SIZE]
          omega
        rw [this, List.replicate_succ]
        simp
      rw [strncpy, List.take_of_length_le (by rw [MAX_BUFFER_SIZE]; omega), hrep,
        List.append_assoc, List.cons_append, cstr_append_nul]
  refine ⟨hname, ?_, ?_⟩
  · rw [init_port_port_name port env g h255]
    by_cases h0 : strlen port = 0
    · simp only [h0, if_true]
      have hd : cstr lit_default_port = [47, 100, 101, 118, 47, 116, 116, 121, 85, 83, 66, 48] := by
        decide
      simp only [strcpy, hd, List.length_append, List.length_drop, hg, MAX_BUFFER_SIZE]
      rfl
    · simp only [h0, if_false]
      have hl : (cstr port).length ≤ 254 := hlen
      simp only [strncpy, List.length_append, List.length_take, List.length_replicate,
        List.length_drop, hg, MAX_BUFFER_SIZE]
      omega
  · rw [init_port_first_calls port env g h255, hname]

/-- Witness for C10: the empty path and the path "/a". -/
theorem init_port_sets_port_name_witness :
    (cstr (init_port [] (InitEnv.mk 3 0 0 0 1)
        (Globals.mk 7 (List.replicate 255 9) (0, 0) memset_newtio 0)).2.1.port_name =
      [47, 100, 101, 118, 47, 116, 116, 121, 85, 83, 66, 48]) ∧
    (cstr (init_port [47, 97] (InitEnv.mk 3 0 0 0 1)
        (Globals.mk 7 (List.replicate 255 9) (0, 0) memset_newtio 0)).2.1.port_name =
      [47, 97]) :=
  ⟨(init_port_sets_port_name [] (InitEnv.mk 3 0 0 0 1)
      (Globals.mk 7 (List.replicate 255 9) (0, 0) memset_newtio 0)
      (List.length_replicate 255 9) (by decide)).1,
   (init_port_sets_port_name [47, 97] (InitEnv.mk 3 0 0 0 1)
      (Globals.mk 7 (List.replicate 255 9) (0, 0) memset_newtio 0)
      (List.length_replicate 255 9) (by decide)).1⟩

end XBee

namespace XBee

/-! ## Result codes of init_port and write_port -/

/-- C11. For every path of length at most 255 and all outcomes of the OS
calls, init_port returns the code of the first step that fails and makes no
call after it: 2 when open gives a descriptor that is not positive (0
included), else 3 when fcntl fails, else 5 when tcflush fails, else 6 when
tcsetattr fails, else 0. Code 4 is never returned, and 0 is returned exactly
when every step succeeded. -/
theorem init_port_first_failing_step (port : List Nat) (env : InitEnv) (g : Globals)
    (h : strlen port ≤ 255) :
    (init_port port env g).1 =
        (if env.open_ret ≤ 0 then 2 else if env.fcntl_ret ≠ 0 then 3
         else if env.tcflush_ret ≠ 0 then 5 else if env.tcsetattr_ret ≠ 0 then 6 else 0) ∧
      (init_port port env g).2.2 =
        List.take
          (if env.open_ret ≤ 0 then 2 else if env.fcntl_ret ≠ 0 then 3
           else if env.tcflush_ret ≠ 0 then 4 else 5)
          [OsCall.signal SIGIO SIG_IGN,
            OsCall.sys_open (cstr (init_port port env g).2.1.port_name)
              (O_RDWR ||| O_NOCTTY ||| O_NONBLOCK),
            OsCall.fcntl env.open_ret F_SETFL O_ASYNC,
            OsCall.tcflush env.open_ret TCIFLUSH,
            OsCall.tcsetattr env.open_ret TCSANOW (init_port port env g).2.1.newtio] ∧
      (init_port port env g).1 ≠ 4 ∧
      ((init_port port env g).1 = 0 ↔
        0 < env.open_ret ∧ env.fcntl_ret = 0 ∧ env.tcflush_ret = 0 ∧ env.tcsetattr_ret = 0) := by
  have hti := to_int_of_lt (strlen port) (by omega)
  have h1 : ¬ ((strlen port : Int) > 255) := by omega
  have ha : ¬ ((env.newtio_addr : Nat) < 1) := by
    have := env.newtio_addr.pos
    omega
  unfold init_port
  simp only [hti, h1, ha, if_false]
  by_cases ho : env.open_ret ≤ 0
  · simp [ho]
  · have ho2 : 0 < env.open_ret := by omega
    by_cases hf : env.fcntl_ret = 0
    · by_cases ht : env.tcflush_ret = 0
      · by_cases hs : env.tcsetattr_ret = 0
        · simp [ho, ho2, hf, ht, hs]
        · simp [ho, ho2, hf, ht, hs]
      · simp [ho, ho2, hf, ht]
    · simp [ho, ho2, hf]

/-- Witness for C11: the default path with a failing tcflush, and with open
giving descriptor 0. -/
theorem init_port_first_failing_step_witness :
    (init_port [] (InitEnv.mk 3 0 (-1) 0 1)
        (Globals.mk 7 (List.replicate 255 0) (0, 0) memset_newtio 0)).1 = 5 ∧
      (init_port [] (InitEnv.mk 0 0 0 0 1)
        (Globals.mk 7 (List.replicate 255 0) (0, 0) memset_newtio 0)).1 = 2 :=
  ⟨(init_port_first_failing_step [] (InitEnv.mk 3 0 (-1) 0 1)
      (Globals.mk 7 (List.replicate 255 0) (0, 0) memset_newtio 0) (by decide)).1,
   (init_port_first_failing_step [] (InitEnv.mk 0 0 0 0 1)
      (Globals.mk 7 (List.replicate 255 0) (0, 0) memset_newtio 0) (by decide)).1⟩

theorem strlen_le_length (s : List Nat) : strlen s ≤ s.length := by
  unfold strlen cstr
  exact (List.takeWhile_sublist _).length_le

/-- C12. write_port hands the OS one write of the strlen( buffer ) bytes
before the NUL, takes one scheduled result, and returns 1 if and only if the
count the OS reports is negative; for every other count, short or 0 included,
it returns 0 and writes nothing more. -/
theorem write_port_single_write (buffer : List Nat) (p : Port) :
    (write_port buffer p).2.sent = p.sent ++ [buffer.take (strlen buffer)] ∧
      (buffer.take (strlen buffer)).length = strlen buffer ∧
      (write_port buffer p).2.writes = p.writes.tail ∧
      ((write_port buffer p).1 = 1 ↔ (os_write (buffer.take (strlen buffer)) p).1 < 0) ∧
      ((write_port buffer p).1 = 0 ↔ 0 ≤ (os_write (buffer.take (strlen buffer)) p).1) ∧
      (os_write (buffer.take (strlen buffer)) p).1 = p.writes.headD (strlen buffer) := by
  have hlen : (buffer.take (strlen buffer)).length = strlen buffer := by
    rw [List.length_take]
    exact Nat.min_eq_left (strlen_le_length buffer)
  refine ⟨write_port_sent buffer p, hlen, write_port_writes buffer p, ?_, ?_, ?_⟩
  · unfold write_port
    by_cases hneg : (os_write (List.take (strlen buffer) buffer) p).1 < 0 <;> simp [hneg]
  · unfold write_port
    by_cases hneg : (os_write (List.take (strlen buffer) buffer) p).1 < 0
    · simp [hneg]
    · simp only [hneg, if_false, true_iff]
      omega
  · unfold os_write
    cases hw : p.writes with
    | nil => simp [hlen]
    | cons r rs => simp

end XBee

namespace XBee

/-! ## What the command-mode functions write -/

/-- A read_port call that returns has returned 0 and changed only the pending
input. -/
theorem read_port_returned (fds : List Int) (rx_char : Nat) (buffer : List Nat) (p : Port)
    (v : Int) (b : List Nat) (p1 : Port)
    (h : read_port fds rx_char buffer p = Run.returned (v, b, p1)) :
    v = 0 ∧ ∃ left : List Poll, p1 = { p with polls := left } := by
  unfold read_port at h
  cases hl : read_loop fds p.polls rx_char 0 buffer with
  | returned r =>
    rw [hl] at h
    simp only [Run.bind, Run.returned.injEq, Prod.mk.injEq] at h
    exact ⟨h.1.symm, r.2, h.2.2.symm⟩
  | blocked =>
    rw [hl] at h
    simp [Run.bind] at h
  | overrun i =>
    rw [hl] at h
    simp [Run.bind] at h

theorem guard_bytes : lit_guard.take (strlen lit_guard) = [43, 43, 43] := by
  decide

theorem atcn_bytes : lit_atcn.take (strlen lit_atcn) = [97, 116, 99, 110, 13] := by
  decide

theorem atmy_bytes : lit_atmy.take (strlen lit_atmy) = [97, 116, 109, 121, 13] := by
  decide

/-- An enter_command_mode call that returns has written the guard and nothing
else. -/
theorem enter_command_mode_sent (l : Locals) (p : Port) (v : Int) (p1 : Port)
    (h : enter_command_mode l p = Run.returned (v, p1)) :
    p1.sent = p.sent ++ [[43, 43, 43]] := by
  unfold enter_command_mode at h
  by_cases hw : (write_port lit_guard p).1 = 0
  · simp only [hw, if_true] at h
    cases hr : read_port [p.port_descriptor] l.rx_char l.rx (write_port lit_guard p).2 with
    | returned r =>
      obtain ⟨hv, left, hp⟩ := read_port_returned _ _ _ _ r.1 r.2.1 r.2.2 hr
      rw [hr] at h
      simp only [Run.bind, hv, ne_eq, not_true_eq_false, if_false, Run.returned.injEq,
        Prod.mk.injEq] at h
      rw [← h.2, hp]
      simp [write_port_sent, guard_bytes]
    | blocked =>
      rw [hr] at h
      simp [Run.bind] at h
    | overrun i =>
      rw [hr] at h
      simp [Run.bind] at h
  · simp only [hw, if_false, Run.returned.injEq, Prod.mk.injEq] at h
    rw [← h.2]
    simp [write_port_sent, guard_bytes]

/-- An exit_command_mode call that returns has written "atcn\r" and nothing
else. -/
theorem exit_command_mode_sent (l : Locals) (p : Port) (v : Int) (p1 : Port)
    (h : exit_command_mode l p = Run.returned (v, p1)) :
    p1.sent = p.sent ++ [[97, 116, 99, 110, 13]] := by
  unfold exit_command_mode at h
  by_cases hw : (write_port lit_atcn p).1 = 0
  · simp only [hw, if_true] at h
    cases hr : read_port [p.port_descriptor] l.rx_char l.rx (write_port lit_atcn p).2 with
    | returned r =>
      obtain ⟨hv, left, hp⟩ := read_port_returned _ _ _ _ r.1 r.2.1 r.2.2 hr
      rw [hr] at h
      simp only [Run.bind, hv, ne_eq, not_true_eq_false, if_false, Run.returned.injEq,
        Prod.mk.injEq] at h
      rw [← h.2, hp]
      simp [write_port_sent, atcn_bytes]
    | blocked =>
      rw [hr] at h
      simp [Run.bind] at h
    | overrun i =>
      rw [hr] at h
      simp [Run.bind] at h
  · simp only [hw, if_false, Run.returned.injEq, Prod.mk.injEq] at h
    rw [← h.2]
    simp [write_port_sent, atcn_bytes]

end XBee

namespace XBee

/-- A get_ip call that returns has written the guard, then possibly "atmy\r",
then possibly "atcn\r", and nothing else. -/
theorem get_ip_sent (e x : Locals) (rx_char : Nat) (buffer : List Nat) (p : Port)
    (v : Int) (b : List Nat) (p1 : Port)
    (h : get_ip e rx_char x buffer p = Run.returned (v, b, p1)) :
    ∃ k : Nat, 1 ≤ k ∧ k ≤ 3 ∧
      p1.sent = p.sent ++
        List.take k [[43, 43, 43], [97, 116, 109, 121, 13], [97, 116, 99, 110, 13]] := by
  unfold get_ip at h
  cases hen : enter_command_mode e p with
  | blocked =>
    rw [hen] at h
    simp [Run.bind] at h
  | overrun i =>
    rw [hen] at h
    simp [Run.bind] at h
  | returned en =>
    have hs1 := enter_command_mode_sent e p en.1 en.2 hen
    rw [hen] at h
    simp only [Run.bind] at h
    by_cases h0 : en.1 = 0
    · simp only [h0, if_true] at h
      by_cases hw : (write_port lit_atmy en.2).1 = 0
      · simp only [hw, if_true] at h
        cases hr : read_port [en.2.port_descriptor] rx_char buffer (write_port lit_atmy en.2).2 with
        | blocked =>
          rw [hr] at h
          simp [Run.bind] at h
        | overrun i =>
          rw [hr] at h
          simp [Run.bind] at h
        | returned r =>
          obtain ⟨hv, left, hp⟩ := read_port_returned _ _ _ _ r.1 r.2.1 r.2.2 hr
          rw [hr] at h
          simp only [Run.bind, hv, ne_eq, not_true_eq_false, if_false] at h
          cases hex : exit_command_mode x r.2.2 with
          | blocked =>
            rw [hex] at h
            simp [Run.bind] at h
          | overrun i =>
            rw [hex] at h
            simp [Run.bind] at h
          | returned ex =>
            have hs3 := exit_command_mode_sent x r.2.2 ex.1 ex.2 hex
            rw [hex] at h
            simp only [Run.bind, Run.returned.injEq, Prod.mk.injEq] at h
            refine ⟨3, by omega, by omega, ?_⟩
            rw [← h.2.2, hs3, hp]
            simp [write_port_sent, atmy_bytes, hs1]
      · simp only [hw, if_false, Run.returned.injEq, Prod.mk.injEq] at h
        refine ⟨2, by omega, by omega, ?_⟩
        rw [← h.2.2]
        simp [write_port_sent, atmy_bytes, hs1]
    · simp only [h0, if_false, Run.returned.injEq, Prod.mk.injEq] at h
      refine ⟨1, by omega, by omega, ?_⟩
      rw [← h.2.2, hs1]
      simp

set_option maxRecDepth 20000 in
/-- C14 (the code at the failing input). The exit step of get_ip fails and
get_ip still returns 0: once with the reply "ERROR" to "atcn\r", once with the
write of "atcn\r" failing. The value of exit_command_mode( ) is discarded. -/
theorem get_ip_swallows_exit_failure :
    get_ip { rx_char := 0, rx := List.replicate 255 0 } 0
        { rx_char := 0, rx := List.replicate 255 0 } [9, 9, 9, 9]
        (Port.mk 3 []
          [gives 79, gives 75, gives 13, gives 49, gives 50, gives 13,
            gives 69, gives 82, gives 82, gives 79, gives 82, gives 13] []) =
      Run.returned (0, [49, 50, 0, 9], Port.mk 3 [] []
        [[43, 43, 43], [97, 116, 109, 121, 13], [97, 116, 99, 110, 13]]) ∧
    get_ip { rx_char := 0, rx := List.replicate 255 0 } 0
        { rx_char := 0, rx := List.replicate 255 0 } [9, 9, 9, 9]
        (Port.mk 3 [3, 5, -1]
          [gives 79, gives 75, gives 13, gives 49, gives 50, gives 13] []) =
      Run.returned (0, [49, 50, 0, 9], Port.mk 3 [] []
        [[43, 43, 43], [97, 116, 109, 121, 13], [97, 116, 99, 110, 13]]) := by
  constructor <;> decide

end XBee

namespace XBee

/-! ## check_descriptors -/

/-- The loop of check_descriptors started at index k - 1 with k turns: it
reads the indices k - 1 down to 0 and adds these descriptors. -/
theorem fd_set_loop_spec (fds : List Int) :
    ∀ (k : Nat) (readfs accessed : List Int), k ≤ fds.length →
      fd_set_loop fds k ((k : Int) - 1) readfs accessed =
        (readfs ++ (fds.take k).reverse,
          accessed ++ (List.range k).reverse.map (fun i : Nat => (i : Int))) := by
  intro k
  induction k with
  | zero =>
    intro readfs accessed _
    simp [fd_set_loop]
  | succ k ih =>
    intro readfs accessed hk
    have hlt : k < fds.length := by omega
    have hcount : ((k + 1 : Nat) : Int) - 1 = (k : Int) := by omega
    have hpos : (k : Int) > -1 := by omega
    have hnext := ih (readfs ++ [fds.getD k 0]) (accessed ++ [(k : Int)]) (by omega)
    rw [hcount, fd_set_loop]
    simp only [hpos, if_true, Int.toNat_ofNat]
    have htake : (fds.take (k + 1)).reverse = fds[k] :: (fds.take k).reverse := by
      rw [List.take_succ, List.getElem?_eq_getElem hlt]
      simp
    rw [hnext, htake, List.range_succ]
    simp [List.getD_eq_getElem?_getD, List.getElem?_eq_getElem hlt]

/-- C15. For every count ≥ 0 and every array of at least count descriptors,
check_descriptors starts from the empty set, adds exactly fds[0 .. count-1],
reads no index outside [0, count), and returns what select returned. With
count = 0 the set is empty, no element is read, and the result is the 0 that
select returns when the timeout elapses. -/
theorem check_descriptors_adds_exactly (count : Nat) (fds : List Int) (select : Int)
    (h : count ≤ fds.length) :
    (check_descriptors count fds select).result = select ∧
      (check_descriptors count fds select).readfs = (fds.take count).reverse ∧
      (check_descriptors count fds select).accessed =
        (List.range count).reverse.map (fun i : Nat => (i : Int)) ∧
      (∀ i ∈ (check_descriptors count fds select).accessed, 0 ≤ i ∧ i < count) ∧
      check_descriptors 0 fds 0 = { result := 0, readfs := [], accessed := [] } := by
  have hfuel : ((count : Int) - 1 + 1).toNat = count := by
    simp
  have hloop := fd_set_loop_spec fds count [] [] h
  have hacc : (check_descriptors count fds select).accessed =
      (List.range count).reverse.map (fun i : Nat => (i : Int)) := by
    simp only [check_descriptors, hfuel, hloop, List.nil_append]
  refine ⟨rfl, ?_, hacc, ?_, ?_⟩
  · simp only [check_descriptors, hfuel, hloop, List.nil_append]
  · intro i hi
    rw [hacc] at hi
    simp only [List.mem_map, List.mem_reverse, List.mem_range] at hi
    obtain ⟨j, hj, rfl⟩ := hi
    omega
  · simp [check_descriptors, fd_set_loop]

/-- Witness for C15: two of three descriptors. -/
theorem check_descriptors_adds_exactly_witness :
    (check_descriptors 2 [7, 8, 9] 1).readfs = [8, 7] ∧
      (check_descriptors 2 [7, 8, 9] 1).accessed = [1, 0] :=
  ⟨(check_descriptors_adds_exactly 2 [7, 8, 9] 1 (by decide)).2.1,
   (check_descriptors_adds_exactly 2 [7, 8, 9] 1 (by decide)).2.2.1⟩

end XBee

namespace XBee

/-! ## The stores of read_port and its exit -/

theorem read_stores_exit (fds : List Int) (polls : List Poll) (index : Nat) :
    read_stores fds polls CR index = [] := by
  cases polls <;> simp [read_stores]

theorem read_stores_nil (fds : List Int) (rx_char index : Nat) :
    read_stores fds [] rx_char index = [] := by
  simp [read_stores]

theorem read_stores_skip (fds : List Int) (q : Poll) (rest : List Poll) (rx_char index : Nat)
    (hc : rx_char ≠ CR) (hq : ¬ (q.ready > 0 ∧ q.rd.ret ≠ 0)) :
    read_stores fds (q :: rest) rx_char index = read_stores fds rest rx_char index := by
  rw [read_stores]
  simp only [hc, if_false, check_descriptors_result]
  by_cases h1 : q.ready > 0
  · have h2 : ¬ q.rd.ret ≠ 0 := fun h => hq ⟨h1, h⟩
    simp [h1, h2]
  · simp [h1]

theorem read_stores_store (fds : List Int) (q : Poll) (rest : List Poll) (rx_char index : Nat)
    (hc : rx_char ≠ CR) (h1 : q.ready > 0) (h2 : q.rd.ret ≠ 0) :
    read_stores fds (q :: rest) rx_char index =
      (index, if q.rd.store rx_char = CR then 0 else q.rd.store rx_char) ::
        read_stores fds rest (q.rd.store rx_char) (index + 1) := by
  rw [read_stores]
  simp only [hc, if_false, check_descriptors_result]
  simp [h1, h2]

/-- No store of the loop has the value CR. -/
theorem read_stores_ne_CR (fds : List Int) :
    ∀ (polls : List Poll) (rx_char index : Nat),
      ∀ s ∈ read_stores fds polls rx_char index, s.2 ≠ CR := by
  intro polls
  induction polls with
  | nil =>
    intro rx_char index s hs
    simp [read_stores_nil] at hs
  | cons q rest ih =>
    intro rx_char index s hs
    by_cases hc : rx_char = CR
    · subst hc
      simp [read_stores_exit] at hs
    · by_cases hq : q.ready > 0 ∧ q.rd.ret ≠ 0
      · rw [read_stores_store fds q rest rx_char index hc hq.1 hq.2, List.mem_cons] at hs
        rcases hs with hs | hs
        · subst hs
          by_cases hv : q.rd.store rx_char = CR
          · simp [hv, CR]
          · simp [hv]
        · exact ih _ _ s hs
      · rw [read_stores_skip fds q rest rx_char index hc hq] at hs
        exact ih _ _ s hs

/-- The array a returning loop leaves is the array it was given with the
stores applied. -/
theorem read_loop_eq_apply_stores (fds : List Int) :
    ∀ (polls : List Poll) (rx_char index : Nat) (buffer b : List Nat) (left : List Poll),
      read_loop fds polls rx_char index buffer = Run.returned (b, left) →
      b = apply_stores buffer (read_stores fds polls rx_char index) := by
  intro polls
  induction polls with
  | nil =>
    intro rx_char index buffer b left h
    by_cases hc : rx_char = CR
    · subst hc
      rw [read_loop_exit] at h
      simp only [Run.returned.injEq, Prod.mk.injEq] at h
      simp [read_stores_exit, apply_stores, h.1]
    · simp [read_loop, hc] at h
  | cons q rest ih =>
    intro rx_char index buffer b left h
    by_cases hc : rx_char = CR
    · subst hc
      rw [read_loop_exit] at h
      simp only [Run.returned.injEq, Prod.mk.injEq] at h
      simp [read_stores_exit, apply_stores, h.1]
    · by_cases hq : q.ready > 0 ∧ q.rd.ret ≠ 0
      · by_cases hi : index < buffer.length
        · rw [read_loop_store fds q rest rx_char index buffer hc hq.1 hq.2 hi] at h
          rw [read_stores_store fds q rest rx_char index hc hq.1 hq.2]
          have := ih _ _ _ b left h
          simpa [apply_stores] using this
        · rw [read_loop_overrun fds q rest rx_char index buffer hc hq.1 hq.2 hi] at h
          simp at h
      · rw [read_loop_skip fds q rest rx_char index buffer hc hq] at h
        rw [read_stores_skip fds q rest rx_char index hc hq]
        exact ih _ _ _ b left h

/-- The store made for the CR: up to the poll that delivers the first CR the
loop makes the stores of the polls before it and then stores 0 at the next
index. -/
theorem read_stores_at_CR (fds : List Int) (r : Int) (rest : List Poll) (hr : r > 0) :
    ∀ (pre : List Poll) (rx_char index : Nat), rx_char ≠ CR → CR ∉ delivered pre →
      read_stores fds (pre ++ { ready := r, rd := .byte CR } :: rest) rx_char index =
        read_stores fds pre rx_char index ++ [(index + storing pre, 0)] := by
  intro pre
  induction pre with
  | nil =>
    intro rx_char index hc _
    have h2 : (Poll.mk r (.byte CR)).rd.ret ≠ 0 := by simp [ReadResult.ret]
    rw [List.nil_append, read_stores_store fds _ rest rx_char index hc hr h2]
    simp [ReadResult.store, read_stores_exit, read_stores_nil, storing]
  | cons q pre ih =>
    intro rx_char index hc hdel
    rw [List.cons_append]
    by_cases hq : q.ready > 0 ∧ q.rd.ret ≠ 0
    · have hst : storing (q :: pre) = 1 + storing pre := by
        simp [storing, hq]
      have hnext : q.rd.store rx_char ≠ CR ∧ CR ∉ delivered pre := by
        cases hrd : q.rd with
        | error => exact ⟨by simpa [ReadResult.store] using hc, by simpa [delivered, hrd] using hdel⟩
        | nothing =>
          exact ⟨by simpa [ReadResult.store] using hc, by simpa [delivered, hrd] using hdel⟩
        | byte b =>
          simp only [delivered, hrd, hq.1, if_true, List.mem_cons, not_or] at hdel
          exact ⟨by simpa [ReadResult.store] using fun h => hdel.1 h.symm, hdel.2⟩
      rw [read_stores_store fds q _ rx_char index hc hq.1 hq.2,
        read_stores_store fds q pre rx_char index hc hq.1 hq.2,
        ih _ (index + 1) hnext.1 hnext.2, hst]
      simp [Nat.add_assoc]
    · have hst : storing (q :: pre) = storing pre := by
        simp only [storing, hq, if_false, Nat.zero_add]
      have hdel2 : CR ∉ delivered pre := by
        cases hrd : q.rd with
        | error => simpa [delivered, hrd] using hdel
        | nothing => simpa [delivered, hrd] using hdel
        | byte b =>
          have h1 : ¬ q.ready > 0 := fun h => hq ⟨h, by simp [hrd, ReadResult.ret]⟩
          simpa [delivered, hrd, h1] using hdel
      rw [read_stores_skip fds q _ rx_char index hc hq,
        read_stores_skip fds q pre rx_char index hc hq, ih _ index hc hdel2, hst]

/-- As long as no CR is delivered the loop does not exit. -/
theorem read_loop_no_CR (fds : List Int) :
    ∀ (polls : List Poll) (rx_char index : Nat) (buffer : List Nat),
      rx_char ≠ CR → CR ∉ delivered polls →
      ∀ r, read_loop fds polls rx_char index buffer ≠ Run.returned r := by
  intro polls
  induction polls with
  | nil =>
    intro rx_char index buffer hc _ r
    simp [read_loop, hc]
  | cons q rest ih =>
    intro rx_char index buffer hc hdel r
    by_cases hq : q.ready > 0 ∧ q.rd.ret ≠ 0
    · by_cases hi : index < buffer.length
      · rw [read_loop_store fds q rest rx_char index buffer hc hq.1 hq.2 hi]
        have hnext : q.rd.store rx_char ≠ CR ∧ CR ∉ delivered rest := by
          cases hrd : q.rd with
          | error =>
            exact ⟨by simpa [ReadResult.store] using hc, by simpa [delivered, hrd] using hdel⟩
          | nothing =>
            exact ⟨by simpa [ReadResult.store] using hc, by simpa [delivered, hrd] using hdel⟩
          | byte b =>
            simp only [delivered, hrd, hq.1, if_true, List.mem_cons, not_or] at hdel
            exact ⟨by simpa [ReadResult.store] using fun h => hdel.1 h.symm, hdel.2⟩
        exact ih _ _ _ hnext.1 hnext.2 r
      · rw [read_loop_overrun fds q rest rx_char index buffer hc hq.1 hq.2 hi]
        simp
    · rw [read_loop_skip fds q rest rx_char index buffer hc hq]
      have hdel2 : CR ∉ delivered rest := by
        cases hrd : q.rd with
        | error => simpa [delivered, hrd] using hdel
        | nothing => simpa [delivered, hrd] using hdel
        | byte b =>
          have h1 : ¬ q.ready > 0 := fun h => hq ⟨h, by simp [hrd, ReadResult.ret]⟩
          simpa [delivered, hrd, h1] using hdel
      exact ih _ _ _ hc hdel2 r

end XBee

namespace XBee

theorem apply_stores_no_CR :
    ∀ (stores : List (Nat × Nat)) (buffer : List Nat),
      (∀ s ∈ stores, s.2 ≠ CR) → CR ∉ buffer → CR ∉ apply_stores buffer stores := by
  intro stores
  induction stores with
  | nil =>
    intro buffer _ hb
    simpa [apply_stores] using hb
  | cons s stores ih =>
    intro buffer hs hb
    have hset : CR ∉ buffer.set s.1 s.2 := by
      intro hmem
      rcases List.mem_or_eq_of_mem_set hmem with h | h
      · exact hb h
      · exact hs s (by simp) h.symm
    have := ih (buffer.set s.1 s.2) (fun t ht => hs t (by simp [ht])) hset
    simpa [apply_stores] using this

/-- C16. read_port never stores the CR as data, whatever the stream, the read
outcomes (empty and failed reads included) and the number of turns of the
loop: no store of the loop has the value 0x0D, the array a returning call
leaves is the given array with these stores applied (so it holds no CR when
the given array held none), and the store made for the CR puts 0 at the
index where the CR would have gone. -/
theorem read_port_never_stores_CR (fds : List Int) (polls : List Poll) (rx_char index : Nat) :
    (∀ s ∈ read_stores fds polls rx_char index, s.2 ≠ CR) ∧
    (∀ (buffer b : List Nat) (left : List Poll),
      read_loop fds polls rx_char index buffer = Run.returned (b, left) →
        b = apply_stores buffer (read_stores fds polls rx_char index) ∧
        (CR ∉ buffer → CR ∉ b)) ∧
    (∀ (pre rest : List Poll) (r : Int),
      polls = pre ++ { ready := r, rd := .byte CR } :: rest → r > 0 → rx_char ≠ CR →
      CR ∉ delivered pre →
        read_stores fds polls rx_char index =
          read_stores fds pre rx_char index ++ [(index + storing pre, 0)]) := by
  refine ⟨read_stores_ne_CR fds polls rx_char index, ?_, ?_⟩
  · intro buffer b left h
    have hb := read_loop_eq_apply_stores fds polls rx_char index buffer b left h
    refine ⟨hb, fun hbuf => ?_⟩
    rw [hb]
    exact apply_stores_no_CR _ buffer (read_stores_ne_CR fds polls rx_char index) hbuf
  · intro pre rest r hp hr hc hdel
    rw [hp]
    exact read_stores_at_CR fds r rest hr pre rx_char index hc hdel

/-- Witness for C16: two bytes, a failed read and the CR. -/
theorem read_port_never_stores_CR_witness :
    read_stores [3] [gives 49, Poll.mk 1 .error, gives 50, gives 13, gives 51] 0 0 =
      read_stores [3] [gives 49, Poll.mk 1 .error, gives 50] 0 0 ++
        [(0 + storing [gives 49, Poll.mk 1 .error, gives 50], 0)] :=
  (read_port_never_stores_CR [3] [gives 49, Poll.mk 1 .error, gives 50, gives 13, gives 51]
    0 0).2.2 [gives 49, Poll.mk 1 .error, gives 50] [gives 51] 1 rfl (by decide) (by decide)
    (by decide)

/-- C17. read_port entered with rx_char not CR returns only after a CR was
read from the port: on a stream without CR it has not returned after any
number of turns of the loop, with whatever select results and read outcomes.
Hence enter_command_mode, once its guard write succeeded, does not return
while the peer sends no CR. -/
theorem read_port_waits_for_CR (fds : List Int) (rx_char : Nat) (buffer : List Nat) (p : Port)
    (l : Locals) (hc : rx_char ≠ CR) (hdel : CR ∉ delivered p.polls) :
    (∀ r, read_port fds rx_char buffer p ≠ Run.returned r) ∧
    (l.rx_char ≠ CR → (write_port lit_guard p).1 = 0 →
      ∀ r, enter_command_mode l p ≠ Run.returned r) := by
  have hread : ∀ (fds : List Int) (c : Nat) (buf : List Nat) (q : Port), c ≠ CR →
      CR ∉ delivered q.polls → ∀ r, read_port fds c buf q ≠ Run.returned r := by
    intro fds c buf q hcc hq r
    unfold read_port
    cases hl : read_loop fds q.polls c 0 buf with
    | returned a => exact absurd hl (read_loop_no_CR fds q.polls c 0 buf hcc hq a)
    | blocked => simp [Run.bind]
    | overrun i => simp [Run.bind]
  refine ⟨hread fds rx_char buffer p hc hdel, ?_⟩
  intro hlc hw r
  have hpolls : CR ∉ delivered (write_port lit_guard p).2.polls := by
    rw [write_port_polls]
    exact hdel
  unfold enter_command_mode
  simp only [hw, if_true]
  cases hr : read_port [p.port_descriptor] l.rx_char l.rx (write_port lit_guard p).2 with
  | returned a => exact absurd hr (hread _ _ _ _ hlc hpolls a)
  | blocked => simp [Run.bind]
  | overrun i => simp [Run.bind]

set_option maxRecDepth 20000 in
/-- Witness for C17: the peer sends "OK" and a newline, no CR. -/
theorem read_port_waits_for_CR_witness :
    (∀ r, read_port [3] 0 (List.replicate 255 0)
        (Port.mk 3 [] [gives 79, gives 75, gives 10, Poll.mk 0 .nothing] []) ≠ Run.returned r) ∧
    ∀ r, enter_command_mode { rx_char := 0, rx := List.replicate 255 0 }
        (Port.mk 3 [] [gives 79, gives 75, gives 10, Poll.mk 0 .nothing] []) ≠ Run.returned r :=
  ⟨(read_port_waits_for_CR [3] 0 (List.replicate 255 0)
      (Port.mk 3 [] [gives 79, gives 75, gives 10, Poll.mk 0 .nothing] [])
      { rx_char := 0, rx := List.replicate 255 0 } (by decide) (by decide)).1,
   (read_port_waits_for_CR [3] 0 (List.replicate 255 0)
      (Port.mk 3 [] [gives 79, gives 75, gives 10, Poll.mk 0 .nothing] [])
      { rx_char := 0, rx := List.replicate 255 0 } (by decide) (by decide)).2
      (by decide) (by decide)⟩

end XBee

namespace XBee

/-! ## Teardown of the terminal program -/

/-- C18 (counterexample). With both buffers allocated the first call of
restore_old_port_settings frees them and leaves the pointers as they were; the
second call frees the same blocks again, which is a free without defined
behaviour. -/
theorem restore_old_port_settings_twice_frees_twice :
    restore_old_port_settings (Serial.mk 1 2 [1, 2] 3 memset_newtio []) =
      some (Serial.mk 1 2 [] 3 memset_newtio [(3, TCSANOW, memset_newtio)]) ∧
    restore_old_port_settings (Serial.mk 1 2 [] 3 memset_newtio [(3, TCSANOW, memset_newtio)]) =
      none := by
  decide

/-- C18 (amended). One call of restore_old_port_settings with the rx and tx
buffers allocated (two different blocks) ends without error: each of the two
blocks is freed once, nothing else is freed, and the saved settings are applied
with one tcsetattr on the port descriptor. -/
theorem restore_old_port_settings_once (s : Serial)
    (hrx : s.global_rx_buffer ∈ s.heap) (htx : s.global_tx_buffer ∈ s.heap)
    (hne : s.global_rx_buffer ≠ s.global_tx_buffer)
    (hrx0 : s.global_rx_buffer ≠ 0) (htx0 : s.global_tx_buffer ≠ 0) :
    restore_old_port_settings s =
      some { s with
        heap := (s.heap.erase s.global_rx_buffer).erase s.global_tx_buffer
        applied := s.applied ++ [(s.global_serial_port_descriptor, TCSANOW, s.oldtio)] } := by
  have htx2 : s.global_tx_buffer ∈ s.heap.erase s.global_rx_buffer :=
    (List.mem_erase_of_ne (Ne.symm hne)).mpr htx
  simp [restore_old_port_settings, free, hrx, hrx0, htx0, htx2]

/-- Witness for C18 (amended): blocks 1 and 2 of a heap with a third block. -/
theorem restore_old_port_settings_once_witness :
    restore_old_port_settings (Serial.mk 1 2 [5, 1, 2] 3 memset_newtio []) =
      some { Serial.mk 1 2 [5, 1, 2] 3 memset_newtio [] with
        heap := (([5, 1, 2] : List Nat).erase 1).erase 2
        applied := [] ++ [(3, TCSANOW, memset_newtio)] } :=
  restore_old_port_settings_once (Serial.mk 1 2 [5, 1, 2] 3 memset_newtio [])
    (by decide) (by decide) (by decide) (by decide) (by decide)

/-! ## The modes init_port leaves -/

set_option maxRecDepth 20000 in
/-- C19 (the code at the failing input). init_port on the default path with
every OS call succeeding returns 0. After open the status flags contain
O_NONBLOCK; after fcntl( F_SETFL, O_ASYNC ), which replaces the changeable
flags by O_ASYNC alone, they are O_RDWR, O_NOCTTY and O_ASYNC, and O_NONBLOCK
is no longer set. -/
theorem init_port_clears_O_NONBLOCK :
    (init_port [] (InitEnv.mk 3 0 0 0 1)
        (Globals.mk 0 (List.replicate 255 0) (0, 0) memset_newtio 0)).1 = 0 ∧
    status_flags ((init_port [] (InitEnv.mk 3 0 0 0 1)
        (Globals.mk 0 (List.replicate 255 0) (0, 0) memset_newtio 0)).2.2.take 2) 0 &&&
      O_NONBLOCK = O_NONBLOCK ∧
    status_flags (init_port [] (InitEnv.mk 3 0 0 0 1)
        (Globals.mk 0 (List.replicate 255 0) (0, 0) memset_newtio 0)).2.2 0 =
      O_RDWR ||| O_NOCTTY ||| O_ASYNC ∧
    status_flags (init_port [] (InitEnv.mk 3 0 0 0 1)
        (Globals.mk 0 (List.replicate 255 0) (0, 0) memset_newtio 0)).2.2 0 &&&
      O_NONBLOCK = 0 := by
  decide

/-- With ICRNL and without EXTPROC, IGNCR and INLCR the translated stream
holds no CR. -/
theorem input_translation_no_CR (peer : List Nat) :
    CR ∉ input_translation (IGNPAR ||| ICRNL) 0 peer := by
  induction peer with
  | nil => simp [input_translation]
  | cons c peer ih =>
    simp only [input_translation, List.flatMap_cons, List.mem_append, not_or] at ih ⊢
    refine ⟨?_, ih⟩
    have hext : external_processing (IGNPAR ||| ICRNL) 0 = false := by decide
    by_cases hc : c = CR
    · subst hc
      decide
    · have h64 : ¬ ((IGNPAR ||| ICRNL) &&& INLCR ≠ 0) := by decide
      simp only [translate_byte, hext, Bool.false_eq_true, hc, if_false, h64, and_false,
        List.mem_singleton]
      exact fun h => hc h.symm

end XBee

namespace XBee

end XBee

namespace XBee

/-! ## Result codes of the command-mode functions -/

set_option maxRecDepth 20000 in
/-- C21 (the code at the failing input). The guard write succeeds and the
peer answers "NK": enter_command_mode returns -1, the code documented for a
failed write. With the answer "MK" it returns -2. The value is the strncmp
difference, which takes the values reserved for the other failures. -/
theorem enter_command_mode_strncmp_collides :
    (write_port lit_guard (Port.mk 3 [] [gives 78, gives 75, gives 13] [])).1 = 0 ∧
    enter_command_mode { rx_char := 0, rx := List.replicate 255 0 }
        (Port.mk 3 [] [gives 78, gives 75, gives 13] []) =
      Run.returned (-1, Port.mk 3 [] [] [[43, 43, 43]]) ∧
    enter_command_mode { rx_char := 0, rx := List.replicate 255 0 }
        (Port.mk 3 [] [gives 77, gives 75, gives 13] []) =
      Run.returned (-2, Port.mk 3 [] [] [[43, 43, 43]]) := by
  decide

/-- The test of the read_port result after a bind has no effect: the result is
always 0. -/
theorem read_port_bind_test {β : Type} (fds : List Int) (rx_char : Nat) (buffer : List Nat)
    (p : Port) (f g : Int × List Nat × Port → Run β) :
    (read_port fds rx_char buffer p).bind (fun r => if r.1 ≠ 0 then f r else g r) =
      (read_port fds rx_char buffer p).bind g := by
  cases hr : read_port fds rx_char buffer p with
  | returned r =>
    obtain ⟨hv, _⟩ := read_port_returned fds rx_char buffer p r.1 r.2.1 r.2.2 hr
    simp [Run.bind, hv]
  | blocked => rfl
  | overrun i => rfl

/-- The values exit_command_mode can return. -/
theorem exit_command_mode_values (l : Locals) (p : Port) (v : Int) (p1 : Port)
    (h : exit_command_mode l p = Run.returned (v, p1)) : v = -1 ∨ v = 0 ∨ v = 1 := by
  unfold exit_command_mode at h
  by_cases hw : (write_port lit_atcn p).1 = 0
  · simp only [hw, if_true] at h
    rw [read_port_bind_test] at h
    cases hr : read_port [p.port_descriptor] l.rx_char l.rx (write_port lit_atcn p).2 with
    | returned r =>
      rw [hr] at h
      simp only [Run.bind, Run.returned.injEq, Prod.mk.injEq] at h
      by_cases hs : strncmp r.2.1 lit_OK 2 = 0
      · right; right
        simpa [hs] using h.1.symm
      · right; left
        simpa [hs] using h.1.symm
    | blocked =>
      rw [hr] at h
      simp [Run.bind] at h
    | overrun i =>
      rw [hr] at h
      simp [Run.bind] at h
  · simp only [hw, if_false, Run.returned.injEq, Prod.mk.injEq] at h
    left
    exact h.1.symm

/-- The values get_ip can return. -/
theorem get_ip_values (e x : Locals) (rx_char : Nat) (buffer : List Nat) (p : Port)
    (v : Int) (b : List Nat) (p1 : Port)
    (h : get_ip e rx_char x buffer p = Run.returned (v, b, p1)) : v = 0 ∨ v = -1 ∨ v = -2 := by
  unfold get_ip at h
  cases hen : enter_command_mode e p with
  | blocked =>
    rw [hen] at h
    simp [Run.bind] at h
  | overrun i =>
    rw [hen] at h
    simp [Run.bind] at h
  | returned en =>
    rw [hen] at h
    simp only [Run.bind] at h
    by_cases h0 : en.1 = 0
    · simp only [h0, if_true] at h
      by_cases hw : (write_port lit_atmy en.2).1 = 0
      · simp only [hw, if_true] at h
        cases hr : read_port [en.2.port_descriptor] rx_char buffer (write_port lit_atmy en.2).2 with
        | blocked =>
          rw [hr] at h
          simp [Run.bind] at h
        | overrun i =>
          rw [hr] at h
          simp [Run.bind] at h
        | returned r =>
          obtain ⟨hv, _⟩ := read_port_returned _ _ _ _ r.1 r.2.1 r.2.2 hr
          rw [hr] at h
          simp only [Run.bind, hv, ne_eq, not_true_eq_false, if_false] at h
          cases hex : exit_command_mode x r.2.2 with
          | blocked =>
            rw [hex] at h
            simp [Run.bind] at h
          | overrun i =>
            rw [hex] at h
            simp [Run.bind] at h
          | returned ex =>
            rw [hex] at h
            simp only [Run.bind, Run.returned.injEq, Prod.mk.injEq] at h
            left
            exact h.1.symm
      · simp only [hw, if_false, Run.returned.injEq, Prod.mk.injEq] at h
        right; right
        exact h.1.symm
    · simp only [h0, if_false, Run.returned.injEq, Prod.mk.injEq] at h
      right; left
      exact h.1.symm

end XBee

namespace XBee

/-- C22. Every read_port call that returns has returned 0, whatever select and
read gave; after a read that returned -1 the value rx_char held before is
stored and the index advances. So the branches taken on read_port( ) != 0 are
dead: enter_command_mode and exit_command_mode equal the same functions
without their return -2, exit_command_mode returns only -1, 0 or 1, and get_ip
returns only 0, -1 or -2, never -3. -/
theorem read_port_error_branches_unreachable :
    (∀ (fds : List Int) (rx_char : Nat) (buffer : List Nat) (p : Port) (v : Int)
      (b : List Nat) (p1 : Port),
      read_port fds rx_char buffer p = Run.returned (v, b, p1) → v = 0) ∧
    (∀ (fds : List Int) (q : Poll) (rest : List Poll) (rx_char index : Nat) (buffer : List Nat),
      rx_char ≠ CR → q.ready > 0 → q.rd = ReadResult.error → index < buffer.length →
      read_loop fds (q :: rest) rx_char index buffer =
        read_loop fds rest rx_char (index + 1) (buffer.set index rx_char)) ∧
    (∀ (l : Locals) (p : Port),
      enter_command_mode l p =
        if (write_port lit_guard p).1 = 0 then
          (read_port [p.port_descriptor] l.rx_char l.rx (write_port lit_guard p).2).bind
            fun r => Run.returned (strncmp r.2.1 lit_OK 2, r.2.2)
        else Run.returned (-1, (write_port lit_guard p).2)) ∧
    (∀ (l : Locals) (p : Port),
      exit_command_mode l p =
        if (write_port lit_atcn p).1 = 0 then
          (read_port [p.port_descriptor] l.rx_char l.rx (write_port lit_atcn p).2).bind
            fun r => Run.returned ((if strncmp r.2.1 lit_OK 2 = 0 then 1 else 0), r.2.2)
        else Run.returned (-1, (write_port lit_atcn p).2)) ∧
    (∀ (l : Locals) (p : Port) (v : Int) (p1 : Port),
      exit_command_mode l p = Run.returned (v, p1) → v = -1 ∨ v = 0 ∨ v = 1) ∧
    (∀ (e x : Locals) (rx_char : Nat) (buffer : List Nat) (p : Port) (v : Int) (b : List Nat)
      (p1 : Port),
      get_ip e rx_char x buffer p = Run.returned (v, b, p1) → v = 0 ∨ v = -1 ∨ v = -2) := by
  refine ⟨?_, ?_, ?_, ?_, exit_command_mode_values, get_ip_values⟩
  · intro fds rx_char buffer p v b p1 h
    exact (read_port_returned fds rx_char buffer p v b p1 h).1
  · intro fds q rest rx_char index buffer hc hr hrd hi
    have h2 : q.rd.ret ≠ 0 := by simp [hrd, ReadResult.ret]
    rw [read_loop_store fds q rest rx_char index buffer hc hr h2 hi]
    simp [hrd, ReadResult.store, hc]
  · intro l p
    unfold enter_command_mode
    by_cases hw : (write_port lit_guard p).1 = 0
    · simp only [hw, if_true]
      exact read_port_bind_test _ _ _ _ _ _
    · simp only [hw, if_false]
  · intro l p
    unfold exit_command_mode
    by_cases hw : (write_port lit_atcn p).1 = 0
    · simp only [hw, if_true]
      exact read_port_bind_test _ _ _ _ _ _
    · simp only [hw, if_false]

set_option maxRecDepth 20000 in
/-- Witness for C22: a read that fails with -1 before the CR. -/
theorem read_port_error_branches_unreachable_witness :
    read_port [3] 65 (List.replicate 255 7) (Port.mk 3 [] [Poll.mk 1 .error, gives 13] []) =
        Run.returned (0, 65 :: 0 :: List.replicate 253 7, Port.mk 3 [] [] []) ∧
      (0 : Int) = 0 :=
  ⟨by decide,
   read_port_error_branches_unreachable.1 [3] 65 (List.replicate 255 7)
     (Port.mk 3 [] [Poll.mk 1 .error, gives 13] []) 0 (65 :: 0 :: List.replicate 253 7)
     (Port.mk 3 [] [] []) (by decide)⟩

end XBee

namespace XBee

/-! ## The boundary of the path check -/

/-- A path that passes the length check does not produce the code 1. -/
theorem init_port_code_ne_one (port : List Nat) (env : InitEnv) (g : Globals)
    (h : strlen port ≤ 255) : (init_port port env g).1 ≠ 1 := by
  have hti := to_int_of_lt (strlen port) (by omega)
  have h1 : ¬ ((strlen port : Int) > 255) := by omega
  unfold init_port
  simp only [hti, h1, if_false]
  split_ifs <;> simp

theorem cstr_no_nul (s : List Nat) : ∀ b ∈ cstr s, b ≠ 0 := by
  intro b hb
  have := List.mem_takeWhile_imp hb
  simpa using this

/-- The length of port_name after strncpy with MAX_BUFFER_SIZE. -/
theorem strncpy_length (dest src : List Nat) (hd : dest.length = MAX_BUFFER_SIZE)
    (h : strlen src ≤ 255) : (strncpy dest src MAX_BUFFER_SIZE).length = MAX_BUFFER_SIZE := by
  have hl : (cstr src).length ≤ 255 := h
  simp only [strncpy, List.length_append, List.length_take, List.length_replicate,
    List.length_drop, hd, MAX_BUFFER_SIZE]
  omega

/-- C23. A path of length exactly 255 passes the length check of init_port
(the result is not 1) and strncpy fills all 255 bytes of port_name with the
characters of the path, none of them NUL, so no terminator lies inside the
array. For every accepted non-empty path, port_name holds the path followed by
a NUL within its 255 bytes if and only if the path length is at most 254. -/
theorem init_port_path_boundary (port : List Nat) (env : InitEnv) (g : Globals)
    (hg : g.port_name.length = MAX_BUFFER_SIZE) :
    (strlen port = 255 →
      (init_port port env g).1 ≠ 1 ∧
      (init_port port env g).2.1.port_name = cstr port ∧
      (init_port port env g).2.1.port_name.length = MAX_BUFFER_SIZE ∧
      ∀ b ∈ (init_port port env g).2.1.port_name, b ≠ 0) ∧
    (0 < strlen port → strlen port ≤ 255 →
      ((∃ tail : List Nat, (init_port port env g).2.1.port_name = cstr port ++ 0 :: tail) ↔
        strlen port ≤ 254)) := by
  constructor
  · intro h255
    have hle : strlen port ≤ 255 := by omega
    have hl : (cstr port).length = 255 := h255
    have hname : (init_port port env g).2.1.port_name = cstr port := by
      rw [init_port_port_name port env g hle]
      have h0 : ¬ strlen port = 0 := by omega
      simp only [h0, if_false, strncpy, MAX_BUFFER_SIZE]
      rw [List.take_of_length_le (by omega), hl, List.drop_of_length_le (by
        rw [hg, MAX_BUFFER_SIZE])]
      simp
    refine ⟨init_port_code_ne_one port env g hle, hname, ?_, ?_⟩
    · rw [hname, hl, MAX_BUFFER_SIZE]
    · rw [hname]
      exact cstr_no_nul port
  · intro hpos hle
    have h0 : ¬ strlen port = 0 := by omega
    have hname : (init_port port env g).2.1.port_name =
        strncpy g.port_name port MAX_BUFFER_SIZE := by
      rw [init_port_port_name port env g hle]
      simp only [h0, if_false]
    have hlen := strncpy_length g.port_name port hg hle
    constructor
    · rintro ⟨tail, htail⟩
      rw [hname] at htail
      have := congrArg List.length htail
      rw [hlen, MAX_BUFFER_SIZE] at this
      simp only [List.length_append, List.length_cons] at this
      show (cstr port).length ≤ 254
      omega
    · intro h254
      have hl : (cstr port).length ≤ 254 := h254
      have hrep : List.replicate (MAX_BUFFER_SIZE - (cstr port).length) 0 =
          0 :: List.replicate (MAX_BUFFER_SIZE - (cstr port).length - 1) 0 := by
        have : MAX_BUFFER_SIZE - (cstr port).length =
            (MAX_BUFFER_SIZE - (cstr port).length - 1) + 1 := by
          rw [MAX_BUFFER_SIZE]
          omega
        rw [this, List.replicate_succ]
        simp
      refine ⟨List.replicate (MAX_BUFFER_SIZE - (cstr port).length - 1) 0 ++
        g.port_name.drop MAX_BUFFER_SIZE, ?_⟩
      rw [hname, strncpy, List.take_of_length_le (by rw [MAX_BUFFER_SIZE]; omega), hrep]
      simp

set_option maxRecDepth 20000 in
/-- Witness for C23: a path of 255 slashes, and the path "/a". -/
theorem init_port_path_boundary_witness :
    (init_port (List.replicate 255 47) (InitEnv.mk 3 0 0 0 1)
        (Globals.mk 7 (List.replicate 255 9) (0, 0) memset_newtio 0)).1 ≠ 1 ∧
    ((∃ tail : List Nat,
        (init_port [47, 97] (InitEnv.mk 3 0 0 0 1)
          (Globals.mk 7 (List.replicate 255 9) (0, 0) memset_newtio 0)).2.1.port_name =
          cstr [47, 97] ++ 0 :: tail) ↔ strlen [47, 97] ≤ 254) :=
  ⟨((init_port_path_boundary (List.replicate 255 47) (InitEnv.mk 3 0 0 0 1)
      (Globals.mk 7 (List.replicate 255 9) (0, 0) memset_newtio 0)
      (List.length_replicate 255 9)).1 (by decide)).1,
   (init_port_path_boundary [47, 97] (InitEnv.mk 3 0 0 0 1)
      (Globals.mk 7 (List.replicate 255 9) (0, 0) memset_newtio 0)
      (List.length_replicate 255 9)).2 (by decide) (by decide)⟩

end XBee

namespace XBee

/-! ## The older check_descriptors against the Library one -/

/-- The loop of the older check_descriptors started at count k with k + 1
turns: it reads the indices k - 1 down to 0 and then the index -1. -/
theorem source_fd_set_loop_spec (fds : List Int) (before : Int) :
    ∀ (k : Nat) (readfs accessed : List Int), k ≤ fds.length →
      Source.fd_set_loop fds before (k + 1) (k : Int) readfs accessed =
        (readfs ++ (fds.take k).reverse ++ [before],
          accessed ++ (List.range k).reverse.map (fun i : Nat => (i : Int)) ++ [-1]) := by
  intro k
  induction k with
  | zero =>
    intro readfs accessed _
    simp [Source.fd_set_loop]
  | succ k ih =>
    intro readfs accessed hk
    have hlt : k < fds.length := by omega
    have hpos : ((k + 1 : Nat) : Int) > -1 := by omega
    have hcount : ((k + 1 : Nat) : Int) - 1 = (k : Int) := by omega
    have hneg : ¬ ((k : Int) < 0) := by omega
    have htake : (fds.take (k + 1)).reverse = fds[k] :: (fds.take k).reverse := by
      rw [List.take_succ, List.getElem?_eq_getElem hlt]
      simp
    have hnext := ih (readfs ++ [fds.getD k 0]) (accessed ++ [(k : Int)]) (by omega)
    rw [Source.fd_set_loop]
    simp only [hpos, if_true, hcount, hneg, if_false, Int.toNat_ofNat]
    rw [hnext, htake, List.range_succ]
    simp [List.getD_eq_getElem?_getD, List.getElem?_eq_getElem hlt]

/-- C24. For every count ≥ 0 the older check_descriptors of Source/libxbee.c
decrements before it indexes: it reads fds[count-1] down to fds[0] and then
fds[-1], one element in front of the array, and puts what lies there into the
set; for count = 0 the index -1 is the only one read. The Library version on
the same arguments reads exactly the indices count-1 down to 0, so the two
differ for every count. -/
theorem source_check_descriptors_reads_before_array (count : Nat) (fds : List Int)
    (before select : Int) (h : count ≤ fds.length) :
    (Source.check_descriptors count fds before select).accessed =
        (List.range count).reverse.map (fun i : Nat => (i : Int)) ++ [-1] ∧
      (Source.check_descriptors count fds before select).readfs =
        (fds.take count).reverse ++ [before] ∧
      (check_descriptors count fds select).accessed =
        (List.range count).reverse.map (fun i : Nat => (i : Int)) ∧
      (-1 : Int) ∈ (Source.check_descriptors count fds before select).accessed ∧
      (-1 : Int) ∉ (check_descriptors count fds select).accessed ∧
      (Source.check_descriptors count fds before select).accessed ≠
        (check_descriptors count fds select).accessed ∧
      (Source.check_descriptors 0 fds before select).accessed = [-1] := by
  have hfuel : ((count : Int) + 1).toNat = count + 1 := by
    omega
  have hloop := source_fd_set_loop_spec fds before count [] [] h
  have hsrc : (Source.check_descriptors count fds before select).accessed =
      (List.range count).reverse.map (fun i : Nat => (i : Int)) ++ [-1] := by
    simp only [Source.check_descriptors, hfuel, hloop, List.nil_append]
  have hfuel2 : ((count : Int) - 1 + 1).toNat = count := by
    simp
  have hlib : (check_descriptors count fds select).accessed =
      (List.range count).reverse.map (fun i : Nat => (i : Int)) := by
    simp only [check_descriptors, hfuel2, fd_set_loop_spec fds count [] [] h, List.nil_append]
  have hnot : (-1 : Int) ∉ (check_descriptors count fds select).accessed := by
    rw [hlib]
    simp only [List.mem_map, List.mem_reverse, List.mem_range, not_exists, not_and]
    intro j _ hj
    omega
  refine ⟨hsrc, ?_, hlib, ?_, hnot, ?_, ?_⟩
  · simp only [Source.check_descriptors, hfuel, hloop, List.nil_append]
  · rw [hsrc]
    simp
  · intro heq
    apply hnot
    rw [← heq, hsrc]
    simp
  · simp [Source.check_descriptors, Source.fd_set_loop]

/-- Witness for C24: the call check_descriptors( 1, fds ) that read_port
makes, with 42 lying in front of the array. -/
theorem source_check_descriptors_reads_before_array_witness :
    (Source.check_descriptors 1 [3] 42 1).accessed = [0, -1] ∧
      (Source.check_descriptors 1 [3] 42 1).readfs = [3, 42] ∧
      (check_descriptors 1 [3] 1).accessed = [0] :=
  ⟨(source_check_descriptors_reads_before_array 1 [3] 42 1 (by decide)).1,
   (source_check_descriptors_reads_before_array 1 [3] 42 1 (by decide)).2.1,
   (source_check_descriptors_reads_before_array 1 [3] 42 1 (by decide)).2.2.1⟩

end XBee

namespace XBee

/-! ## The bytes the library writes -/

/-- get_ip is the sequence enter_command_mode, write of "atmy\r", read_port,
exit_command_mode, with the branch on a non-zero read_port result dead. -/
theorem get_ip_sequence (e x : Locals) (rx_char : Nat) (buffer : List Nat) (p : Port) :
    get_ip e rx_char x buffer p =
      (enter_command_mode e p).bind fun en =>
        if en.1 = 0 then
          if (write_port lit_atmy en.2).1 = 0 then
            (read_port [en.2.port_descriptor] rx_char buffer (write_port lit_atmy en.2).2).bind
              fun r => (exit_command_mode x r.2.2).bind fun ex =>
                Run.returned (en.1, r.2.1, ex.2)
          else Run.returned (-2, buffer, (write_port lit_atmy en.2).2)
        else Run.returned (-1, buffer, en.2) := by
  unfold get_ip
  cases hen : enter_command_mode e p with
  | blocked => rfl
  | overrun i => rfl
  | returned en =>
    simp only [Run.bind]
    by_cases h0 : en.1 = 0
    · by_cases hw : (write_port lit_atmy en.2).1 = 0
      · simp only [h0, hw, if_true]
        exact read_port_bind_test _ _ _ _ _ _
      · simp only [h0, hw, if_true, if_false]
    · simp only [h0, if_false]

/-- C13. The guard that enter_command_mode hands to write is exactly the
three bytes "+++" (the C string in the literal "+++\0" has length 3), without
CR and without NUL, while the other commands the library writes, "atcn\r" in
exit_command_mode and "atmy\r" in get_ip, end in CR and contain no other CR.
Each function starts with this write: write_port logs exactly these bytes,
enter_command_mode and exit_command_mode are the write followed by the read in
the world the write left (or the return of -1 in that world), get_ip is the
sequence of the three, and every call that returns leaves the log grown by
these commands in this order. -/
theorem guard_is_three_bytes_commands_end_in_CR :
    (strlen lit_guard = 3 ∧ lit_guard.take (strlen lit_guard) = [43, 43, 43] ∧
      CR ∉ lit_guard.take (strlen lit_guard) ∧ 0 ∉ lit_guard.take (strlen lit_guard)) ∧
    (∀ p : Port,
      (write_port lit_guard p).2.sent = p.sent ++ [[43, 43, 43]] ∧
      (write_port lit_atcn p).2.sent = p.sent ++ [[97, 116, 99, 110, 13]] ∧
      (write_port lit_atmy p).2.sent = p.sent ++ [[97, 116, 109, 121, 13]]) ∧
    (∀ (l : Locals) (p : Port),
      enter_command_mode l p =
        if (write_port lit_guard p).1 = 0 then
          (read_port [p.port_descriptor] l.rx_char l.rx (write_port lit_guard p).2).bind
            fun r => Run.returned (strncmp r.2.1 lit_OK 2, r.2.2)
        else Run.returned (-1, (write_port lit_guard p).2)) ∧
    (∀ (l : Locals) (p : Port),
      exit_command_mode l p =
        if (write_port lit_atcn p).1 = 0 then
          (read_port [p.port_descriptor] l.rx_char l.rx (write_port lit_atcn p).2).bind
            fun r => Run.returned ((if strncmp r.2.1 lit_OK 2 = 0 then 1 else 0), r.2.2)
        else Run.returned (-1, (write_port lit_atcn p).2)) ∧
    (∀ (e x : Locals) (rx_char : Nat) (buffer : List Nat) (p : Port),
      get_ip e rx_char x buffer p =
        (enter_command_mode e p).bind fun en =>
          if en.1 = 0 then
            if (write_port lit_atmy en.2).1 = 0 then
              (read_port [en.2.port_descriptor] rx_char buffer (write_port lit_atmy en.2).2).bind
                fun r => (exit_command_mode x r.2.2).bind fun ex =>
                  Run.returned (en.1, r.2.1, ex.2)
            else Run.returned (-2, buffer, (write_port lit_atmy en.2).2)
          else Run.returned (-1, buffer, en.2)) ∧
    (∀ (l : Locals) (p : Port) (v : Int) (p1 : Port),
      enter_command_mode l p = Run.returned (v, p1) → p1.sent = p.sent ++ [[43, 43, 43]]) ∧
    (∀ (l : Locals) (p : Port) (v : Int) (p1 : Port),
      exit_command_mode l p = Run.returned (v, p1) →
        p1.sent = p.sent ++ [lit_atcn.take (strlen lit_atcn)]) ∧
    (∀ (e x : Locals) (rx_char : Nat) (buffer : List Nat) (p : Port) (v : Int) (b : List Nat)
      (p1 : Port), get_ip e rx_char x buffer p = Run.returned (v, b, p1) →
        ∃ k : Nat, 1 ≤ k ∧ k ≤ 3 ∧
          p1.sent = p.sent ++ List.take k
            [[43, 43, 43], lit_atmy.take (strlen lit_atmy), lit_atcn.take (strlen lit_atcn)]) ∧
    (∀ c ∈ [lit_atcn.take (strlen lit_atcn), lit_atmy.take (strlen lit_atmy)],
      c.getLast? = some CR ∧ c.count CR = 1) := by
  refine ⟨by decide, ?_, ?_, ?_, get_ip_sequence, enter_command_mode_sent, ?_, ?_, by decide⟩
  · intro p
    refine ⟨?_, ?_, ?_⟩
    · rw [write_port_sent, guard_bytes]
    · rw [write_port_sent, atcn_bytes]
    · rw [write_port_sent, atmy_bytes]
  · intro l p
    unfold enter_command_mode
    by_cases hw : (write_port lit_guard p).1 = 0
    · simp only [hw, if_true]
      exact read_port_bind_test _ _ _ _ _ _
    · simp only [hw, if_false]
  · intro l p
    unfold exit_command_mode
    by_cases hw : (write_port lit_atcn p).1 = 0
    · simp only [hw, if_true]
      exact read_port_bind_test _ _ _ _ _ _
    · simp only [hw, if_false]
  · intro l p v p1 h
    rw [atcn_bytes]
    exact exit_command_mode_sent l p v p1 h
  · intro e x rx_char buffer p v b p1 h
    rw [atcn_bytes, atmy_bytes]
    exact get_ip_sent e x rx_char buffer p v b p1 h

set_option maxRecDepth 20000 in
/-- Witness for C13: entering command mode with the reply "OK", and with a
failing guard write. -/
theorem guard_is_three_bytes_commands_end_in_CR_witness :
    (enter_command_mode { rx_char := 0, rx := List.replicate 255 0 }
        (Port.mk 3 [] [gives 79, gives 75, gives 13] [[1]]) =
      Run.returned (0, Port.mk 3 [] [] [[1], [43, 43, 43]]) ∧
    (Port.mk 3 [] [] [[1], [43, 43, 43]]).sent =
      (Port.mk 3 [] [gives 79, gives 75, gives 13] [[1]]).sent ++ [[43, 43, 43]]) ∧
    enter_command_mode { rx_char := 0, rx := List.replicate 255 0 }
        (Port.mk 3 [-1] [gives 79, gives 75, gives 13] [[1]]) =
      Run.returned (-1, Port.mk 3 [] [gives 79, gives 75, gives 13] [[1], [43, 43, 43]]) :=
  ⟨⟨by decide,
    guard_is_three_bytes_commands_end_in_CR.2.2.2.2.2.1
      { rx_char := 0, rx := List.replicate 255 0 }
      (Port.mk 3 [] [gives 79, gives 75, gives 13] [[1]]) 0
      (Port.mk 3 [] [] [[1], [43, 43, 43]]) (by decide)⟩,
   (guard_is_three_bytes_commands_end_in_CR.2.2.1
      { rx_char := 0, rx := List.replicate 255 0 }
      (Port.mk 3 [-1] [gives 79, gives 75, gives 13] [[1]])).trans (by decide)⟩

end XBee
